import Mathlib

/-!
# Verification of the Clarity language toolchain

Shallow embedding of the Clarity language repository
(`clarity_parser.py`, `optimized_lexer.py`, `clarity_interpreter.py`,
`language_project/translator.py`) together with proofs settling the
frozen claims about its specification.

Modelling conventions:
* Python `dict`s become association lists, Python `None`/exceptions become
  `Option`/`Except`, and the interpreter's single mutable
  `self.global_env` pointer becomes an explicit stack of binding frames.
* Text is modelled over ASCII characters: the Python character
  predicates `str.isspace` / `str.isdigit` / `str.isalpha` /
  `str.isalnum` and `str.lower` are embedded with their ASCII meaning,
  which coincides with Python on every ASCII string.
* `hashlib.sha256(...).hexdigest()` is an opaque parameter
  `hash : String → String` of the translator definitions; theorems that
  need collision freeness state it as an explicit hypothesis.
* Numeric leaves of knowledge documents are modelled as integers and the
  interpreter's numbers as rationals (Python's exact ints together with
  an exact model of `/`); no claim below depends on binary floating
  point rounding.
-/

namespace ClarityLang

/-! ## JSON documents (the knowledge-document data model)

`language_project/translator.py` serializes knowledge documents with
`json.dumps(boc_target, sort_keys=True)`.  We embed the documents as a
JSON value tree and the serialization with Python's default separators
`", "` / `": "` and `sort_keys=True` key ordering. -/

inductive Json where
  | null : Json
  | bool (b : Bool) : Json
  | num (n : Int) : Json
  | str (s : String) : Json
  | arr (elems : List Json) : Json
  | obj (fields : List (String × Json)) : Json

/-- Lexicographic comparison of characters by code point, as Python
compares strings. -/
def charListLe : List Char → List Char → Bool
  | [], _ => true
  | _ :: _, [] => false
  | a :: as, b :: bs =>
    if a.val < b.val then true
    else if b.val < a.val then false
    else charListLe as bs

/-- Python string `<=` (code-point lexicographic), used by
`sort_keys=True`. -/
def strLe (a b : String) : Bool := charListLe a.toList b.toList

/-- Insertion step of the stable key sort performed by
`json.dumps(..., sort_keys=True)`. -/
def insertByKey (p : String × String) : List (String × String) → List (String × String)
  | [] => [p]
  | q :: qs => if strLe p.1 q.1 then p :: q :: qs else q :: insertByKey p qs

/-- Stable sort of serialized object entries by key (Python dict keys
are unique, so stability is irrelevant to the result). -/
def sortByKey : List (String × String) → List (String × String)
  | [] => []
  | p :: ps => insertByKey p (sortByKey ps)

/-- Hex digit used by `\uXXXX` escapes of `json.dumps`. -/
def hexDigit (n : Nat) : Char :=
  if n < 10 then Char.ofNat (48 + n) else Char.ofNat (87 + n)

/-- Four-digit hex rendering of a code point for `\uXXXX`. -/
def hex4 (n : Nat) : String :=
  String.mk [hexDigit (n / 4096 % 16), hexDigit (n / 256 % 16),
             hexDigit (n / 16 % 16), hexDigit (n % 16)]

/-- Escaping of one character inside a JSON string literal, following
`json.dumps` with its default `ensure_ascii=True` (characters beyond
the basic multilingual plane are not used by the translator and are
rendered here without surrogate splitting). -/
def jsonEscapeChar (c : Char) : String :=
  if c = '"' then "\\\""
  else if c = '\\' then "\\\\"
  else if c = '\n' then "\\n"
  else if c = '\t' then "\\t"
  else if c = '\r' then "\\r"
  else if c = '\x08' then "\\b"
  else if c = '\x0c' then "\\f"
  else if c.val < 32 ∨ c.val ≥ 127 then "\\u" ++ hex4 c.toNat
  else String.mk [c]

/-- JSON string literal rendering of `json.dumps`. -/
def jsonQuote (s : String) : String :=
  "\"" ++ String.join (s.toList.map jsonEscapeChar) ++ "\""

/-- `json.dumps(value, sort_keys=True)` over the embedded documents:
default separators `", "` and `": "`, keys sorted lexicographically.
Each object value is serialized first and the rendered entries are then
sorted by key, which yields the same string as sorting the keys first
because entry serialization is order independent. -/
def Json.dumps (j : Json) : String :=
  match j with
  | .null => "null"
  | .bool b => if b then "true" else "false"
  | .num n => toString n
  | .str s => jsonQuote s
  | .arr elems =>
    "[" ++ String.intercalate ", " (elems.attach.map (fun e => Json.dumps e.1)) ++ "]"
  | .obj fields =>
    let rendered := fields.attach.map (fun p => (p.1.1, Json.dumps p.1.2))
    "\x7b" ++
      String.intercalate ", "
        ((sortByKey rendered).map (fun kv => jsonQuote kv.1 ++ ": " ++ kv.2)) ++
    "\x7d"
termination_by sizeOf j
decreasing_by
  · have := List.sizeOf_lt_of_mem e.2
    simp only [Json.arr.sizeOf_spec]
    omega
  · have h1 := List.sizeOf_lt_of_mem p.2
    have h2 : sizeOf p.1.2 < sizeOf p.1 := by
      rcases p.1 with ⟨a, b⟩
      simp
    simp only [Json.obj.sizeOf_spec]
    omega

/-! ## Exact number model

Python's numbers in this repository are exact integers plus the results
of true division.  They are modelled as exact fractions stored
unnormalized (numerator, positive denominator) and compared by
cross-multiplication, so that every operation reduces inside the
kernel; no claim depends on binary floating point rounding. -/

/-- An exact fraction: `n / d` with `d` kept positive by every
operation below. -/
structure PyNum where
  n : Int
  d : Int
deriving DecidableEq, Repr

/-- Embed a Python `int`. -/
def PyNum.ofInt (i : Int) : PyNum := ⟨i, 1⟩

/-- Value equality of fractions (cross-multiplication). -/
def PyNum.beq (a b : PyNum) : Bool := a.n * b.d == b.n * a.d

instance : BEq PyNum := ⟨PyNum.beq⟩

/-- Value order of fractions (denominators positive). -/
def PyNum.blt (a b : PyNum) : Bool := a.n * b.d < b.n * a.d

/-- Value order of fractions, non-strict. -/
def PyNum.ble (a b : PyNum) : Bool := a.n * b.d ≤ b.n * a.d

def PyNum.add (a b : PyNum) : PyNum := ⟨a.n * b.d + b.n * a.d, a.d * b.d⟩

def PyNum.sub (a b : PyNum) : PyNum := ⟨a.n * b.d - b.n * a.d, a.d * b.d⟩

def PyNum.mul (a b : PyNum) : PyNum := ⟨a.n * b.n, a.d * b.d⟩

/-- Exact true division (the caller guards a zero divisor); the sign is
moved into the numerator to keep the denominator positive. -/
def PyNum.div (a b : PyNum) : PyNum :=
  let n := a.n * b.d
  let d := a.d * b.n
  if d < 0 then ⟨-n, -d⟩ else ⟨n, d⟩

def PyNum.neg (a : PyNum) : PyNum := ⟨-a.n, a.d⟩

/-- `math.floor` of the fraction (`Int.fdiv` rounds toward negative
infinity). -/
def PyNum.floor (a : PyNum) : Int := Int.fdiv a.n a.d

/-- Python `%` with floor semantics: `a - b * floor(a / b)`. -/
def PyNum.pymod (a b : PyNum) : PyNum :=
  PyNum.sub a (PyNum.mul b (PyNum.ofInt (PyNum.floor (PyNum.div a b))))

/-- Rendering for error message interpolation. -/
def PyNum.render (a : PyNum) : String :=
  let q := Int.fdiv a.n a.d
  if a.n == a.d * q then toString q else toString a.n ++ "/" ++ toString a.d

/-! ## Translation proofs (`TranslationProof`, translator.py lines 17-43)

`datetime.now().isoformat()` is nondeterministic input and is passed in
as the `timestamp` argument; `hashlib.sha256(...).hexdigest()` is the
`hash` parameter. -/

structure TranslationProof where
  clarity_source : String
  boc_target : Json
  translator_version : String
  timestamp : String
  source_hash : String
  target_hash : String
  proof_hash : String

/-- `TranslationProof._generate_proof_hash`: hash of the concatenation
`source_hash + target_hash + translator_version + timestamp`. -/
def generateProofHash (hash : String → String)
    (source_hash target_hash translator_version timestamp : String) : String :=
  hash (source_hash ++ target_hash ++ translator_version ++ timestamp)

/-- `TranslationProof.__init__`: stores the inputs, the two recomputable
hashes and the derived proof hash. -/
def TranslationProof.make (hash : String → String) (clarity_source : String)
    (boc_target : Json) (translator_version timestamp : String) : TranslationProof :=
  let source_hash := hash clarity_source
  let target_hash := hash boc_target.dumps
  { clarity_source := clarity_source
    boc_target := boc_target
    translator_version := translator_version
    timestamp := timestamp
    source_hash := source_hash
    target_hash := target_hash
    proof_hash := generateProofHash hash source_hash target_hash translator_version timestamp }

/-- `TranslationProof.verify_proof`: recomputes both content hashes from
the caller-supplied source text and document, recomputes the proof hash
from them together with the stored version and timestamp, and compares
against the stored hashes. -/
def TranslationProof.verify_proof (hash : String → String) (p : TranslationProof)
    (clarity_source : String) (boc_target : Json) : Bool :=
  let computed_source_hash := hash clarity_source
  let computed_target_hash := hash boc_target.dumps
  let computed_proof_hash :=
    generateProofHash hash computed_source_hash computed_target_hash
      p.translator_version p.timestamp
  computed_proof_hash == p.proof_hash && computed_source_hash == p.source_hash

/-! ## Python value rendering used by the reverse translator

`BOCtoClarityTranslator` interpolates document values into f-strings,
which renders them with Python `str()` (falling back to `repr()` for
containers).  Both renderings are embedded below for the document
values of the `Json` model. -/

/-- `repr()` of one character inside a Python single-quoted string
literal. -/
def pyReprChar (c : Char) : String :=
  if c = '\\' then "\\\\"
  else if c = '\'' then "\\'"
  else if c = '\n' then "\\n"
  else if c = '\r' then "\\r"
  else if c = '\t' then "\\t"
  else if c.val < 32 ∨ c.val ≥ 127 then
    "\\x" ++ String.mk [hexDigit (c.toNat / 16 % 16), hexDigit (c.toNat % 16)]
  else String.mk [c]

/-- Python `repr()` of a string: single-quoted unless the string
contains a single quote but no double quote. -/
def pyReprString (s : String) : String :=
  if s.toList.contains '\'' ∧ ¬ s.toList.contains '"' then
    "\"" ++ String.join (s.toList.map (fun c =>
      if c = '\'' then "'" else pyReprChar c)) ++ "\""
  else
    "'" ++ String.join (s.toList.map pyReprChar) ++ "'"

/-- Python `repr()` of a document value. -/
def Json.pyRepr (j : Json) : String :=
  match j with
  | .null => "None"
  | .bool b => if b then "True" else "False"
  | .num n => toString n
  | .str s => pyReprString s
  | .arr elems =>
    "[" ++ String.intercalate ", " (elems.attach.map (fun e => Json.pyRepr e.1)) ++ "]"
  | .obj fields =>
    "\x7b" ++
      String.intercalate ", "
        (fields.attach.map (fun p => pyReprString p.1.1 ++ ": " ++ Json.pyRepr p.1.2)) ++
    "\x7d"
termination_by sizeOf j
decreasing_by
  · have := List.sizeOf_lt_of_mem e.2
    simp only [Json.arr.sizeOf_spec]
    omega
  · have h1 := List.sizeOf_lt_of_mem p.2
    have h2 : sizeOf p.1.2 < sizeOf p.1 := by
      rcases p.1 with ⟨a, b⟩
      simp
    simp only [Json.obj.sizeOf_spec]
    omega

/-- Python `str()` of a document value (what an f-string interpolation
produces). -/
def Json.pyStr (j : Json) : String :=
  match j with
  | .str s => s
  | other => other.pyRepr

/-- Python truthiness of a document value. -/
def Json.pyTruthy (j : Json) : Bool :=
  match j with
  | .null => false
  | .bool b => b
  | .num n => n ≠ 0
  | .str s => s ≠ ""
  | .arr elems => ¬ elems.isEmpty
  | .obj fields => ¬ fields.isEmpty

/-- Association-list lookup for document objects (Python dict lookup;
the translator only indexes into dicts). -/
def Json.lookup (j : Json) (key : String) : Option Json :=
  match j with
  | .obj fields => (fields.find? (fun kv => kv.1 == key)).map (·.2)
  | _ => none

/-- `dict.get(key, default)`. -/
def Json.pyGet (j : Json) (key : String) (dflt : Json) : Json :=
  (j.lookup key).getD dflt

/-- `key in component` (the components built by the forward translator
are always dicts; other value shapes answer `false` here). -/
def Json.hasKey (j : Json) (key : String) : Bool :=
  (j.lookup key).isSome

/-- Errors raised while the reverse translator renders text:
`KeyError` from `component[...]` indexing and `TypeError` from joining
or iterating the wrong shape. -/
inductive TransError where
  | keyError (key : String)
  | typeError (msg : String)
deriving DecidableEq

/-- `component[key]` dict indexing: `KeyError` when absent. -/
def Json.index (j : Json) (key : String) : Except TransError Json :=
  match j with
  | .obj fields =>
    match (fields.find? (fun kv => kv.1 == key)).map (·.2) with
    | some v => .ok v
    | none => .error (.keyError key)
  | _ => .error (.typeError "indexing a non-dict document value")

/-- Iterating a document value as a sequence (the translator iterates
`components` and `parameters`, both built as lists). -/
def Json.asList (j : Json) : Except TransError (List Json) :=
  match j with
  | .arr elems => .ok elems
  | _ => .error (.typeError "iterating a non-list document value")

/-- String content of a document value (`fact.startswith` requires a
string). -/
def Json.asStr (j : Json) : Except TransError String :=
  match j with
  | .str s => .ok s
  | _ => .error (.typeError "str method on a non-string document value")

/-- `"pat" in s` substring test on the character list. -/
def listHasInfix (pat : List Char) : List Char → Bool
  | [] => pat.isEmpty
  | c :: cs => pat.isPrefixOf (c :: cs) || listHasInfix pat cs

/-- `"pat" in s` on strings. -/
def strHasInfix (pat s : String) : Bool := listHasInfix pat.toList s.toList

/-! ## Reverse translator (`BOCtoClarityTranslator`, translator.py 392-499) -/

namespace BOCtoClarityTranslator

/-- `self.version` of `BOCtoClarityTranslator`. -/
def version : String := "2.0-enhanced"

/-- The record returned by `_verify_round_trip`: `confidence_level` is
the Python float literal `0.95`, modelled as the exact rational. -/
structure RoundTripVerification where
  verification_passed : Bool
  confidence_level : PyNum
  differences_detected : List String
  semantic_equivalence_confirmed : Bool
deriving DecidableEq

/-- `BOCtoClarityTranslator._verify_round_trip` (translator.py 415-424):
returns a fixed record with `verification_passed = True` without
reading either the document or the supplied proof. -/
def verifyRoundTrip (_boc_repr : Json) (_expected_proof : TranslationProof) :
    RoundTripVerification :=
  { verification_passed := true
    confidence_level := ⟨95, 100⟩
    differences_detected := []
    semantic_equivalence_confirmed := true }

/-- `_generate_function_code`: the comment/header lines and the `fn`
skeleton for a function fragment. The second comment line indexes
`func_def['structured_knowledge']`, which the fragments produced by the
forward translator do not contain as a nested key. -/
def generateFunctionCode (func_def : Json) (index : Nat) : Except TransError String := do
  let paramsVal ← func_def.index "parameters"
  let paramList ← paramsVal.asList
  let params ← paramList.mapM (fun param => do
    let n ← param.index "name"
    let t ← param.index "type"
    pure (n.pyStr ++ ": " ++ t.pyStr))
  let param_str := String.intercalate ", " params
  let rt ← func_def.index "return_type"
  let return_type := if rt.pyTruthy then " -> " ++ rt.pyStr else ""
  let origin := (func_def.pyGet "provenance" (.obj [])).pyGet "original_lines" (.str "unknown")
  let line1 := "// Function #" ++ toString index ++ " - BOC Origin: " ++ origin.pyStr
  let sk ← func_def.index "structured_knowledge"
  let spl ← sk.index "semantic_preservation_level"
  let line2 := "// Semantic preservation: " ++ spl.pyStr
  let conf ← sk.index "confidence"
  let line3 := "// Confidence: " ++ conf.pyStr
  let nm ← sk.index "name"
  let line4 := "fn " ++ nm.pyStr ++ "(" ++ param_str ++ ")" ++ return_type ++ " \x7b"
  pure (String.intercalate "\n"
    [line1, line2, line3, line4,
     "    // TODO: Implement function logic",
     "    // Based on reasoning context and intent in original BOC",
     "    // Debugging trace available via provenance information",
     "\x7d"])

/-- `_generate_variable_declaration`: one comment line per belief
fragment. -/
def generateVariableDeclaration (belief : Json) (index : Nat) : Except TransError String := do
  let factVal ← belief.index "fact"
  let fact ← factVal.asStr
  if fact.startsWith "variable_" && strHasInfix "_initialized" fact then do
    let conf ← belief.index "confidence"
    let value := belief.pyGet "value" (.str "unknown")
    pure ("// [" ++ toString index ++ "] " ++ conf.pyStr ++ " confidence that " ++
      fact ++ " = " ++ value.pyStr)
  else do
    let conf ← belief.index "confidence"
    pure ("// [" ++ toString index ++ "] Belief: " ++ fact ++
      " (confidence: " ++ conf.pyStr ++ ")")

/-- `_generate_conditional_code`: returns a LIST of lines (not a
string), which `translate_to_clarity` appends as a single element. -/
def generateConditionalCode (context : Json) (index : Nat) : List String :=
  let coverage := (context.pyGet "debugging_info" (.obj [])).pyGet "branch_coverage" (.str "not_tracked")
  let threshold := match context.lookup "confidence_threshold" with
    | some v => v.pyStr
    | none => "0.5"
  [ "// Conditional #" ++ toString index ++ " - Translation from BOC reasoning context",
    "// Branch coverage tracking: " ++ coverage.pyStr,
    "// Condition: " ++ (context.pyGet "condition" (.str "unknown")).pyStr,
    "// Confidence threshold: " ++ threshold,
    "if /* condition from reasoning */ \x7b",
    "    // Then branch logic (from BOC)",
    "\x7d else \x7b",
    "    // Else branch logic (from BOC)",
    "\x7d" ]

/-- An element appended to the `clarity_code` accumulator: every branch
appends a string except the `reasoning_context` branch, which appends a
list of strings. -/
inductive CodeItem where
  | line (s : String)
  | block (lines : List String)

/-- `"\n".join(clarity_code)`: Python `str.join` raises `TypeError` as
soon as it meets a non-string element. -/
def joinCode : List CodeItem → Except TransError String
  | [] => .ok ""
  | [.line s] => .ok s
  | .line s :: rest => do
    let tail ← joinCode rest
    pure (s ++ "\n" ++ tail)
  | .block _ :: _ => .error (.typeError "sequence item: expected str instance, list found")

/-- The translation of one component inside the loop of
`translate_to_clarity`. -/
def translateComponent (component : Json) (idx : Nat) : Except TransError CodeItem := do
  if component.hasKey "structured_knowledge" then do
    let sk ← component.index "structured_knowledge"
    let ty ← sk.index "type"
    if (match ty with | .str s => s == "function_definition" | _ => false) then do
      let code ← generateFunctionCode sk idx
      pure (.line code)
    else translateComponentTail component idx
  else translateComponentTail component idx
where
  /-- The `elif` chain after the function-definition test. -/
  translateComponentTail (component : Json) (idx : Nat) : Except TransError CodeItem := do
    if component.hasKey "belief" then do
      let belief ← component.index "belief"
      let code ← generateVariableDeclaration belief idx
      pure (.line code)
    else if component.hasKey "reasoning_context" then do
      let context ← component.index "reasoning_context"
      pure (.block (generateConditionalCode context idx))
    else
      pure (.line ("// Component " ++ toString idx ++ ": Generic element translated from BOC"))

/-- `BOCtoClarityTranslator.translate_to_clarity` (translator.py
426-452). `datetime.now().isoformat()` is the `now` parameter. -/
def translateToClarity (boc_representation : Json) (now : String) : Except TransError String := do
  let sk0 := boc_representation.pyGet "structured_knowledge" (.obj [])
  let author := (sk0.pyGet "provenance" (.obj [])).pyGet "author" (.str "unknown")
  let header : List CodeItem :=
    [ .line ("// Auto-generated from BOC representation (v" ++ version ++ ")"),
      .line ("// Translated at: " ++ now),
      .line ("// Original source: " ++ author.pyStr),
      .line "" ]
  let componentsVal := sk0.pyGet "components" (.arr [])
  let components := match componentsVal with
    | .arr elems => elems
    | _ => []
  let items ← (components.enum.mapM (fun ci => translateComponent ci.2 ci.1))
  joinCode (header ++ items)

/-- The dict returned by `translate_with_verification`. -/
structure TranslateWithVerificationResult where
  clarity_code : String
  verification_result : Option RoundTripVerification
  translator_version : String
  timestamp : String

/-- `BOCtoClarityTranslator.translate_with_verification` (translator.py
398-413): translates first, then — only when a proof was supplied —
stores the record produced by `_verify_round_trip`. -/
def translateWithVerification (boc_representation : Json)
    (expected_proof : Option TranslationProof) (now : String) :
    Except TransError TranslateWithVerificationResult := do
  let clarity_code ← translateToClarity boc_representation now
  let verification_result := expected_proof.map (verifyRoundTrip boc_representation)
  pure { clarity_code := clarity_code
         verification_result := verification_result
         translator_version := version
         timestamp := now }

end BOCtoClarityTranslator

/-! ## The source-language AST (`clarity_parser.py` lines 282-404)

One tagged union over the node classes; the `node_type` string of the
Python classes becomes the constructor.  `Number.__init__` applies
`int(value)`, so number nodes carry integers. -/

inductive Node where
  | program (statements : List Node)
  | functionDef (name : String) (params : List (String × String))
      (return_type : Option String) (body : List Node)
  | variableDecl (mutable : Bool) (name : String) (var_type : Option String) (value : Node)
  | constantDecl (name : String) (value : Node)
  | assignment (name : String) (value : Node)
  | binaryOp (left : Node) (operator : String) (right : Node)
  | unaryOp (operator : String) (operand : Node)
  | ifExpr (condition : Node) (then_branch : List Node) (else_branch : Option (List Node))
  | whileLoop (condition : Node) (body : List Node)
  | forLoop (var_name : String) (iterable : Node) (body : List Node)
  | returnStmt (value : Option Node)
  | functionCall (name : String) (args : List Node)
  | ident (name : String)
  | number (value : Int)
  | strLit (value : String)
  | boolean (value : Bool)
  | matchExpr (expr : Node) (arms : List (Node × Node))

/-- `isinstance(stmt, ReturnStmt)`. -/
def isReturnStmt : Node → Bool
  | .returnStmt _ => true
  | _ => false

/-! ## Runtime values of the interpreter (`clarity_interpreter.py`)

The interpreter is dynamically typed over Python values.  Numbers are
modelled as rationals: Python's exact integers embed exactly, and `/`
(true division) is modelled as exact division — no claim below depends
on binary floating point rounding.  A Python `bool` is an `int`
subclass, so the numeric view `Value.asNum?` includes booleans.
User-defined function values are the stored `FunctionDef` AST nodes;
built-in values are the two bound methods installed by
`Interpreter.__init__`. -/

inductive Builtin where
  | printlnFn
  | sqrtFn
deriving DecidableEq

inductive Value where
  | num (q : PyNum)
  | str (s : String)
  | bool (b : Bool)
  | null
  | list (elems : List Value)
  | func (name : String) (params : List (String × String))
      (return_type : Option String) (body : List Node)
  | builtin (b : Builtin)

/-- The exceptions the interpreter can raise (`ZeroDivisionError`,
`NameError`, `TypeError`, `ValueError`).  `unmodelled` marks the one
operation outside this model (`math.sqrt`, which returns a machine
float); `outOfFuel` is an artifact of the fuel-indexed evaluator and
occurs in no theorem below. -/
inductive PyError where
  | zeroDivisionError (msg : String)
  | nameError (msg : String)
  | typeError (msg : String)
  | valueError (msg : String)
  | unmodelled (msg : String)
  | outOfFuel
deriving DecidableEq, Repr

/-- Python truthiness of an interpreter value (used by `if`, `while`,
`and`, `or`, `not`). -/
def Value.truthy : Value → Bool
  | .num q => ¬ PyNum.beq q (PyNum.ofInt 0)
  | .str s => s ≠ ""
  | .bool b => b
  | .null => false
  | .list elems => ¬ elems.isEmpty
  | .func _ _ _ _ => true
  | .builtin _ => true

/-- The numeric reading of a value: Python `bool` is an `int` subclass,
so `True` counts as `1` in arithmetic and comparisons. -/
def Value.asNum? : Value → Option PyNum
  | .num q => some q
  | .bool b => some (PyNum.ofInt (if b then 1 else 0))
  | _ => none

mutual

/-- Python `==` on the values the interpreter produces: numeric values
(including booleans) compare by value across kinds, strings and `None`
structurally, lists pointwise.  Function and method objects compare by
identity in Python; distinct function values never flow into an `==`
in any claim, and same-builtin references are identical objects. -/
def pyEq : Value → Value → Bool
  | .list xs, .list ys => pyEqList xs ys
  | a, b =>
    match a.asNum?, b.asNum? with
    | some x, some y => x == y
    | _, _ =>
      match a, b with
      | .str s, .str t => s == t
      | .null, .null => true
      | .builtin x, .builtin y => x == y
      | _, _ => false

/-- Pointwise `==` of Python lists. -/
def pyEqList : List Value → List Value → Bool
  | [], [] => true
  | x :: xs, y :: ys => pyEq x y && pyEqList xs ys
  | _, _ => false

end

/-- Strict code-point lexicographic `<` of Python strings. -/
def charListLt : List Char → List Char → Bool
  | [], [] => false
  | [], _ :: _ => true
  | _ :: _, [] => false
  | a :: as, b :: bs =>
    if a.val < b.val then true
    else if b.val < a.val then false
    else charListLt as bs

/-- Python `<` on interpreter values: numeric or string-string; other
mixes raise `TypeError` (list-list ordering is not exercised by any
program in the claims). -/
def pyLt (a b : Value) : Except PyError Bool :=
  match a.asNum?, b.asNum? with
  | some x, some y => .ok (PyNum.blt x y)
  | _, _ =>
    match a, b with
    | .str s, .str t => .ok (charListLt s.toList t.toList)
    | _, _ => .error (.typeError "unsupported operand types for comparison")

/-- Python `<=` on interpreter values. -/
def pyLe (a b : Value) : Except PyError Bool :=
  match a.asNum?, b.asNum? with
  | some x, some y => .ok (PyNum.ble x y)
  | _, _ =>
    match a, b with
    | .str s, .str t => .ok (¬ charListLt t.toList s.toList)
    | _, _ => .error (.typeError "unsupported operand types for comparison")

/-- Python `+`: numbers add, strings and lists concatenate. -/
def pyAdd (a b : Value) : Except PyError Value :=
  match a.asNum?, b.asNum? with
  | some x, some y => .ok (.num (PyNum.add x y))
  | _, _ =>
    match a, b with
    | .str s, .str t => .ok (.str (s ++ t))
    | .list xs, .list ys => .ok (.list (xs ++ ys))
    | _, _ => .error (.typeError "unsupported operand types for +")

/-- Python `-` on numbers. -/
def pySub (a b : Value) : Except PyError Value :=
  match a.asNum?, b.asNum? with
  | some x, some y => .ok (.num (PyNum.sub x y))
  | _, _ => .error (.typeError "unsupported operand types for -")

/-- Python `*` on numbers (sequence repetition is not exercised by any
program in the claims). -/
def pyMul (a b : Value) : Except PyError Value :=
  match a.asNum?, b.asNum? with
  | some x, some y => .ok (.num (PyNum.mul x y))
  | _, _ => .error (.typeError "unsupported operand types for *")

/-- Python `/` on numbers, reached only after the interpreter's own
`right == 0` guard; modelled as exact division. -/
def pyDiv (a b : Value) : Except PyError Value :=
  match a.asNum?, b.asNum? with
  | some x, some y => .ok (.num (PyNum.div x y))
  | _, _ => .error (.typeError "unsupported operand types for /")

/-- Python `%` on numbers: `a - b * floor(a / b)`, raising
`ZeroDivisionError` on a zero divisor as Python itself does (the
interpreter adds no guard of its own for `%`). -/
def pyMod (a b : Value) : Except PyError Value :=
  match a.asNum?, b.asNum? with
  | some x, some y =>
    if PyNum.beq y (PyNum.ofInt 0) then
      .error (.zeroDivisionError "integer division or modulo by zero")
    else .ok (.num (PyNum.pymod x y))
  | _, _ => .error (.typeError "unsupported operand types for %")

/-- A rendering of values for interpolated error messages (Python
`str()`; containers abbreviated — the rendering appears only inside
error message strings, never in a value). -/
def Value.render : Value → String
  | .num q => PyNum.render q
  | .str s => s
  | .bool b => if b then "True" else "False"
  | .null => "None"
  | .list _ => "<list>"
  | .func n _ _ _ => "<function " ++ n ++ ">"
  | .builtin _ => "<builtin>"

/-- `type(v)` rendering for the for-loop error message (rationals of
the model render as Python `int`). -/
def Value.typeName : Value → String
  | .num _ => "<class 'int'>"
  | .str _ => "<class 'str'>"
  | .bool _ => "<class 'bool'>"
  | .null => "<class 'NoneType'>"
  | .list _ => "<class 'list'>"
  | .func _ _ _ _ => "<class 'clarity_parser.FunctionDef'>"
  | .builtin _ => "<class 'method'>"

/-- `Interpreter.visit_BinaryOp`'s operator dispatch over the two
already-evaluated operands.  The source evaluates BOTH operands before
dispatch, so `&&` / `||` do not short-circuit: they return one operand
by Python `and` / `or` truthiness.  `/` checks `right == 0` (Python
`==`, so `False` and `0.0` also trigger it) before dividing. -/
def applyBinary (operator : String) (left right : Value) : Except PyError Value :=
  if operator == "+" then pyAdd left right
  else if operator == "-" then pySub left right
  else if operator == "*" then pyMul left right
  else if operator == "/" then
    if pyEq right (.num (PyNum.ofInt 0)) then .error (.zeroDivisionError "Division by zero")
    else pyDiv left right
  else if operator == "%" then pyMod left right
  else if operator == "==" then .ok (.bool (pyEq left right))
  else if operator == "!=" then .ok (.bool (¬ pyEq left right))
  else if operator == "<" then (pyLt left right).map .bool
  else if operator == ">" then (pyLt right left).map .bool
  else if operator == "<=" then (pyLe left right).map .bool
  else if operator == ">=" then (pyLe right left).map .bool
  else if operator == "&&" then .ok (if left.truthy then right else left)
  else if operator == "||" then .ok (if left.truthy then left else right)
  else .error (.valueError ("Unknown operator: " ++ operator))

/-- `Interpreter.visit_UnaryOp`'s dispatch. -/
def applyUnary (operator : String) (operand : Value) : Except PyError Value :=
  if operator == "-" then
    match operand.asNum? with
    | some x => .ok (.num (PyNum.neg x))
    | none => .error (.typeError "bad operand type for unary -")
  else if operator == "!" then .ok (.bool (¬ operand.truthy))
  else .error (.valueError ("Unknown unary operator: " ++ operator))

/-! ## Environments and interpreter state

Python's `Environment` objects form a parent chain and the interpreter
keeps one mutable `self.global_env` pointer to the innermost one.  The
chain is modelled as a stack of frames (head = innermost); every
push is matched by a `finally` restore in the source, so restoring the
saved environment reference is popping the pushed frame, while
`assign` mutations to outer frames survive the restore exactly as they
do through Python's object references.  `println` output is recorded
as an observable trace. -/

abbrev Frame := List (String × Value)

structure InterpState where
  frames : List Frame
  output : List (List Value)

/-- `Environment.define`: bind in the innermost frame (dict overwrite
keeps the original position, insertion appends). -/
def frameSet (name : String) (v : Value) : Frame → Frame
  | [] => [(name, v)]
  | (k, w) :: rest => if k == name then (k, v) :: rest else (k, w) :: frameSet name v rest

/-- Bind in the innermost frame of the chain. -/
def envDefine (name : String) (v : Value) : List Frame → List Frame
  | [] => [[(name, v)]]
  | f :: rest => frameSet name v f :: rest

/-- `Environment.assign`: update the innermost frame that already binds
the name; `none` when no frame does (`NameError`). -/
def envAssign (name : String) (v : Value) : List Frame → Option (List Frame)
  | [] => none
  | f :: rest =>
    if (f.find? (fun kv => kv.1 == name)).isSome then some (frameSet name v f :: rest)
    else (envAssign name v rest).map (f :: ·)

/-- `Environment.get`: read through the parent chain. -/
def envGet (name : String) : List Frame → Option Value
  | [] => none
  | f :: rest =>
    match f.find? (fun kv => kv.1 == name) with
    | some kv => some kv.2
    | none => envGet name rest

/-- The interpreter's effect: state threading with Python exceptions.
An error carries the state at the raise point so that the
`try/finally` environment restores stay observable on the error path. -/
def Interp (α : Type) : Type := InterpState → Except PyError α × InterpState

instance : Monad Interp where
  pure a := fun s => (.ok a, s)
  bind x f := fun s =>
    match x s with
    | (.ok a, s') => f a s'
    | (.error e, s') => (.error e, s')

def throwPy {α : Type} (e : PyError) : Interp α := fun s => (.error e, s)

def ofExceptPy {α : Type} : Except PyError α → Interp α
  | .ok a => fun s => (.ok a, s)
  | .error e => throwPy e

/-- `self.global_env.define(...)`. -/
def defineVar (name : String) (v : Value) : Interp Unit := fun s =>
  (.ok (), { s with frames := envDefine name v s.frames })

/-- `self.global_env.assign(...)` with its `NameError`. -/
def assignVar (name : String) (v : Value) : Interp Unit := fun s =>
  match envAssign name v s.frames with
  | some fr => (.ok (), { s with frames := fr })
  | none => (.error (.nameError ("Undefined variable: " ++ name)), s)

/-- `self.global_env.get(...)` with its `NameError`. -/
def getVar (name : String) : Interp Value := fun s =>
  match envGet name s.frames with
  | some v => (.ok v, s)
  | none => (.error (.nameError ("Undefined variable: " ++ name)), s)

/-- The `print(*args)` side effect of the built-in `println`. -/
def emit (args : List Value) : Interp Unit := fun s =>
  (.ok (), { s with output := s.output ++ [args] })

/-- The source pattern `env_before = self.global_env; self.global_env =
Environment(parent=env_before); try: body; finally: self.global_env =
env_before`: push a fresh child frame, run the body, and pop the frame
on BOTH exit paths (ok and raised error). -/
def withChildEnv {α : Type} (body : Interp α) : Interp α := fun s =>
  match body { s with frames := [] :: s.frames } with
  | (r, s2) => (r, { s2 with frames := s2.frames.tail })

/-- `self._builtin_println` / `self._builtin_sqrt` dispatch.
`math.sqrt` returns a machine float (usually irrational), which the
rational value model cannot represent; it is marked `unmodelled` and no
claim exercises it. -/
def callBuiltin : Builtin → List Value → Interp Value
  | .printlnFn, args => do
    emit args
    pure .null
  | .sqrtFn, [_] => throwPy (.unmodelled "math.sqrt returns a machine float outside this model")
  | .sqrtFn, _ => throwPy (.typeError "sqrt() takes exactly one argument")

/-- Binding the zipped parameter/argument pairs into the fresh call
frame (`for name, value in arg_bindings.items(): define`). -/
def bindParams : List ((String × String) × Value) → Interp Unit
  | [] => pure ()
  | (p, v) :: rest => do
    defineVar p.1 v
    bindParams rest

/-! ## The evaluator (`Interpreter.visit_*`)

Fuel-indexed: every recursive call burns one unit, so any terminating
run succeeds for all sufficiently large fuel; exhausted fuel raises the
model-artifact error `outOfFuel`. -/

mutual

/-- `Interpreter.visit`: dispatch on the node kind, each arm the direct
translation of the corresponding `visit_...` method. -/
def visit : Nat → Node → Interp Value
  | 0, _ => throwPy .outOfFuel
  | fuel+1, node =>
    match node with
    | .program statements => runStmts fuel statements .null
    | .functionDef name params rt body => do
      defineVar name (.func name params rt body)
      pure .null
    | .variableDecl _mut name _ty value => do
      let v ← visit fuel value
      defineVar name v
      pure v
    | .constantDecl name value => do
      let v ← visit fuel value
      defineVar name v
      pure v
    | .assignment name value => do
      let v ← visit fuel value
      assignVar name v
      pure v
    | .binaryOp left operator right => do
      let lv ← visit fuel left
      let rv ← visit fuel right
      ofExceptPy (applyBinary operator lv rv)
    | .unaryOp operator operand => do
      let v ← visit fuel operand
      ofExceptPy (applyUnary operator v)
    | .ifExpr condition then_branch else_branch => do
      let cv ← visit fuel condition
      if cv.truthy then withChildEnv (runStmts fuel then_branch .null)
      else
        match else_branch with
        | some els =>
          if els.isEmpty then pure .null
          else withChildEnv (runStmts fuel els .null)
        | none => pure .null
    | .whileLoop condition body => runWhile fuel condition body .null
    | .forLoop var_name iterable body => do
      let it ← visit fuel iterable
      match it with
      | .list elems => runFor fuel var_name body elems .null
      | other => throwPy (.typeError ("Cannot iterate over " ++ other.typeName))
    | .returnStmt value =>
      match value with
      | some v => visit fuel v
      | none => pure .null
    | .functionCall name args => do
      let f ← getVar name
      match f with
      | .builtin b => do
        let argv ← evalArgs fuel args
        callBuiltin b argv
      | .func _fname params _rt body =>
        if args.length ≠ params.length then
          throwPy (.valueError ("Function " ++ name ++ " expects " ++
            toString params.length ++ " arguments but got " ++ toString args.length))
        else do
          let argv ← evalArgs fuel args
          withChildEnv (do
            bindParams (params.zip argv)
            runFuncBody fuel body .null)
      | _ => throwPy (.nameError (name ++ " is not callable"))
    | .ident name => getVar name
    | .number value => pure (.num (PyNum.ofInt value))
    | .strLit value => pure (.str value)
    | .boolean value => pure (.bool value)
    | .matchExpr expr arms => do
      let v ← visit fuel expr
      matchArms fuel v arms

/-- The body loops of `visit_Program` / `visit_IfExpr` /
`visit_WhileLoop` / `visit_ForLoop`: `result = self.visit(stmt)` in
order, keeping the incoming `result` when the list is empty. -/
def runStmts : Nat → List Node → Value → Interp Value
  | 0, _, _ => throwPy .outOfFuel
  | _+1, [], result => pure result
  | fuel+1, stmt :: rest, _ => do
    let r ← visit fuel stmt
    runStmts fuel rest r

/-- `visit_WhileLoop`: `result` persists across iterations and is
returned when the condition turns falsy. -/
def runWhile : Nat → Node → List Node → Value → Interp Value
  | 0, _, _, _ => throwPy .outOfFuel
  | fuel+1, condition, body, result => do
    let cv ← visit fuel condition
    if cv.truthy then do
      let r ← withChildEnv (runStmts fuel body result)
      runWhile fuel condition body r
    else pure result

/-- `visit_ForLoop`'s iteration: per item, push a child environment,
bind the loop variable there, run the body, pop the environment. -/
def runFor : Nat → String → List Node → List Value → Value → Interp Value
  | 0, _, _, _, _ => throwPy .outOfFuel
  | _+1, _, _, [], result => pure result
  | fuel+1, var_name, body, item :: rest, result => do
    let r ← withChildEnv (do
      defineVar var_name item
      runStmts fuel body result)
    runFor fuel var_name body rest r

/-- `visit_FunctionCall`'s body loop: run statements in order, and
return immediately after a statement that IS a top-level `ReturnStmt`
(the `isinstance(stmt, ReturnStmt)` check of the source). -/
def runFuncBody : Nat → List Node → Value → Interp Value
  | 0, _, _ => throwPy .outOfFuel
  | _+1, [], result => pure result
  | fuel+1, stmt :: rest, _ => do
    let r ← visit fuel stmt
    if isReturnStmt stmt then pure r
    else runFuncBody fuel rest r

/-- `[self.visit(arg) for arg in node.args]`. -/
def evalArgs : Nat → List Node → Interp (List Value)
  | 0, _ => throwPy .outOfFuel
  | _+1, [] => pure []
  | fuel+1, a :: rest => do
    let v ← visit fuel a
    let vs ← evalArgs fuel rest
    pure (v :: vs)

/-- `visit_MatchExpr`'s arm loop over the already-evaluated scrutinee:
literal patterns (`Number`/`String`/`Boolean`) compare by `==`, an
identifier pattern returns its arm unconditionally, any other pattern
node is skipped, and an exhausted arm list raises `ValueError`. -/
def matchArms : Nat → Value → List (Node × Node) → Interp Value
  | 0, _, _ => throwPy .outOfFuel
  | _+1, v, [] => throwPy (.valueError ("No match found for value: " ++ v.render))
  | fuel+1, v, (pattern, result_expr) :: rest =>
    match pattern with
    | .number _ | .strLit _ | .boolean _ => do
      let pv ← visit fuel pattern
      if pyEq v pv then visit fuel result_expr else matchArms fuel v rest
    | .ident _ => visit fuel result_expr
    | _ => matchArms fuel v rest

end

/-- `Interpreter.__init__`: the global environment pre-populated with
the two built-ins. -/
def initState : InterpState :=
  { frames := [[("println", .builtin .printlnFn), ("sqrt", .builtin .sqrtFn)]]
    output := [] }

/-- `Interpreter.interpret` from a fresh interpreter. -/
def interpret (fuel : Nat) (ast : Node) : Except PyError Value × InterpState :=
  visit fuel ast initState

/-! ## Tokens (`clarity_parser.py` 13-80 and `optimized_lexer.py` 17-87)

Both modules define the identical `TokenType` enum and `Token` class;
they are embedded once. -/

inductive TokType where
  | IDENTIFIER | NUMBER | STRING
  | FN | LET | VAR | CONST | IF | ELSE | WHILE | FOR | IN | RETURN | MATCH
  | ASYNC | AWAIT | TRUE | FALSE
  | PLUS | MINUS | MULTIPLY | DIVIDE | MODULO | ASSIGN | EQ | NEQ | LT | GT
  | LTE | GTE | AND | OR | NOT
  | LPAREN | RPAREN | LBRACE | RBRACE | LBRACKET | RBRACKET | COMMA | COLON
  | ARROW | DOT | SEMICOLON
  | EOF
deriving DecidableEq, Repr

structure Token where
  type : TokType
  value : String
  line : Nat
  column : Nat
deriving DecidableEq, Repr

/-- A lexer failure: the `Exception` raised on an unrecognized
character (carrying the character and its position), or the artifact of
the fuel-indexed token loop. -/
inductive LexError where
  | illegalChar (c : Char) (line : Nat) (column : Nat)
  | outOfFuel
deriving DecidableEq, Repr

/-- Shared mutable lexer state: `text`, `pos`, `line` (1-based),
`column` (0-based).  Python's cached `self.current_char` always equals
`text[pos] if pos < len(text) else None` and is derived, not stored. -/
structure LexState where
  text : List Char
  pos : Nat
  line : Nat
  column : Nat
deriving DecidableEq, Repr

/-- `self.current_char`. -/
def currentChar (l : LexState) : Option Char := l.text.get? l.pos

/-- `Lexer.__init__` / `OptimizedLexer.__init__`. -/
def LexState.init (text : List Char) : LexState :=
  { text := text, pos := 0, line := 1, column := 0 }

/-- `advance` (identical in both lexer modules): newline resets the
column and bumps the line, anything else bumps the column; `pos` always
moves one forward. -/
def advance (l : LexState) : LexState :=
  if currentChar l = some '\n' then
    { l with line := l.line + 1, column := 0, pos := l.pos + 1 }
  else
    { l with column := l.column + 1, pos := l.pos + 1 }

/-- `peek` (identical in both lexer modules). -/
def peek (l : LexState) : Option Char := l.text.get? (l.pos + 1)

/-- Python `str.isspace` on ASCII characters: the six classic
whitespace characters together with the separator controls
`\x1c`-`\x1f`. -/
def pyIsSpace (c : Char) : Bool :=
  c == ' ' || c == '\t' || c == '\n' || c == '\r' || c == '\x0b' || c == '\x0c' ||
    (28 ≤ c.val && c.val ≤ 31)

/-- `OptimizedLexer.WHITESPACE_CHARS = set(' \t\n\r\v\f')`. -/
def WHITESPACE_CHARS : List Char := [' ', '\t', '\n', '\r', '\x0b', '\x0c']

/-- Membership in `OptimizedLexer.LETTER_CHARS` (ASCII letters and the
underscore). -/
def optIsLetter (c : Char) : Bool := c.isAlpha || c == '_'

/-- The keyword dict (`keyword_map` in `Lexer.get_next_token` and
`OptimizedLexer.KEYWORDS` are the same literal dict). -/
def keywordMap : List (String × TokType) :=
  [("fn", .FN), ("let", .LET), ("var", .VAR), ("const", .CONST), ("if", .IF),
   ("else", .ELSE), ("while", .WHILE), ("for", .FOR), ("in", .IN),
   ("return", .RETURN), ("match", .MATCH), ("async", .ASYNC), ("await", .AWAIT),
   ("true", .TRUE), ("false", .FALSE)]

/-- Python `str.lower` on ASCII text: lowercase each character. -/
def pyLower (value : String) : String :=
  String.mk (value.toList.map Char.toLower)

/-- `keyword_map.get(value.lower(), TokenType.IDENTIFIER)`. -/
def keywordLookup (value : String) : TokType :=
  ((keywordMap.find? (fun kv => kv.1 == pyLower value)).map (·.2)).getD .IDENTIFIER

/-- The single-character token dict (`char_tokens` in
`Lexer.get_next_token` and `OptimizedLexer.SINGLE_CHAR_TOKENS` are the
same literal dict). -/
def singleCharToken (c : Char) : Option TokType :=
  if c == '+' then some .PLUS
  else if c == '-' then some .MINUS
  else if c == '*' then some .MULTIPLY
  else if c == '/' then some .DIVIDE
  else if c == '%' then some .MODULO
  else if c == '=' then some .ASSIGN
  else if c == '!' then some .NOT
  else if c == '<' then some .LT
  else if c == '>' then some .GT
  else if c == '(' then some .LPAREN
  else if c == ')' then some .RPAREN
  else if c == '\x7b' then some .LBRACE
  else if c == '\x7d' then some .RBRACE
  else if c == '[' then some .LBRACKET
  else if c == ']' then some .RBRACKET
  else if c == ',' then some .COMMA
  else if c == ':' then some .COLON
  else if c == '.' then some .DOT
  else if c == ';' then some .SEMICOLON
  else none

/-- The loop of `skip_comment`, fueled (each wrapper below supplies
fuel that always suffices, so the loop runs to completion). -/
def skipCommentAux : Nat → LexState → LexState
  | 0, l => l
  | fuel+1, l =>
    match currentChar l with
    | some c => if c = '\n' then l else skipCommentAux fuel (advance l)
    | none => l

/-- `skip_comment` (identical in both lexer modules): consume up to,
but not including, the next newline or end of input. -/
def skipComment (l : LexState) : LexState :=
  skipCommentAux (l.text.length - l.pos + 1) l

/-- Take the slice `text[a:b]` (how `OptimizedLexer` extracts lexemes
via `self.text[start_pos:self.pos]`). -/
def slice (text : List Char) (a b : Nat) : List Char := (text.drop a).take (b - a)

namespace BasicLexer

/-- The fueled loop of `Lexer.skip_whitespace`. -/
def skipWhitespaceAux : Nat → LexState → LexState
  | 0, l => l
  | fuel+1, l =>
    match currentChar l with
    | some c => if pyIsSpace c then skipWhitespaceAux fuel (advance l) else l
    | none => l

/-- `Lexer.skip_whitespace`: consume while `current_char.isspace()`. -/
def skipWhitespace (l : LexState) : LexState :=
  skipWhitespaceAux (l.text.length - l.pos + 1) l

/-- The fueled loop of `Lexer.read_number`. -/
def readNumberAux : Nat → LexState → List Char × LexState
  | 0, l => ([], l)
  | fuel+1, l =>
    match currentChar l with
    | some c =>
      if c.isDigit then
        let (ds, l') := readNumberAux fuel (advance l)
        (c :: ds, l')
      else ([], l)
    | none => ([], l)

/-- `Lexer.read_number`: a maximal run of `isdigit()` characters,
accumulated character by character. -/
def readNumber (l : LexState) : List Char × LexState :=
  readNumberAux (l.text.length - l.pos + 1) l

/-- The fueled loop of `Lexer.read_identifier`. -/
def readIdentifierAux : Nat → LexState → List Char × LexState
  | 0, l => ([], l)
  | fuel+1, l =>
    match currentChar l with
    | some c =>
      if c.isAlphanum || c == '_' then
        let (ds, l') := readIdentifierAux fuel (advance l)
        (c :: ds, l')
      else ([], l)
    | none => ([], l)

/-- `Lexer.read_identifier`: a maximal run of `isalnum()` or `_`. -/
def readIdentifier (l : LexState) : List Char × LexState :=
  readIdentifierAux (l.text.length - l.pos + 1) l

/-- The body loop of `Lexer.read_string`: consume until the matching
quote or end of input.  On a backslash the escape character is skipped
and ONLY the following character is appended (`result +=
self.current_char` after one `advance`). -/
def readStringBodyAux : Nat → Char → LexState → List Char × LexState
  | 0, _, l => ([], l)
  | fuel+1, q, l =>
    match currentChar l with
    | none => ([], l)
    | some c =>
      if c == q then ([], l)
      else if c == '\\' then
        match currentChar (advance l) with
        | none => ([], advance l)
        | some c2 =>
          let (cs, l2) := readStringBodyAux fuel q (advance (advance l))
          (c2 :: cs, l2)
      else
        let (cs, l2) := readStringBodyAux fuel q (advance l)
        (c :: cs, l2)

def readStringBody (q : Char) (l : LexState) : List Char × LexState :=
  readStringBodyAux (l.text.length - l.pos + 1) q l

/-- `Lexer.read_string`: record the opening quote, read the body, then
skip the closing quote when present (an unterminated string silently
ends at end of input). -/
def readString (l : LexState) : List Char × LexState :=
  match currentChar l with
  | none => ([], l)
  | some q =>
    let (cs, l2) := readStringBody q (advance l)
    let l3 := if currentChar l2 == some q then advance l2 else l2
    (cs, l3)

/-- `Lexer.get_next_token` (clarity_parser.py 161-279).  Fuel bounds
the number of skipped whitespace/comment stretches; every terminating
scan succeeds for all sufficiently large fuel.  Branch order follows
the source: whitespace, comment, number, identifier/keyword, string,
`=>` (emitted as ARROW with lexeme `->`), `->`, `==`, `!=`, `<=`, `>=`,
`&&`, `||`, single-character tokens, illegal character.  Two-character
operators stamp the token with the position AFTER the two `advance`
calls, column minus one; all other tokens are stamped with their start
position. -/
def getNextToken : Nat → LexState → Except LexError (Token × LexState)
  | 0, _ => .error .outOfFuel
  | fuel+1, l =>
    match currentChar l with
    | none => .ok ({ type := .EOF, value := "", line := l.line, column := l.column }, l)
    | some c =>
      if pyIsSpace c then getNextToken fuel (skipWhitespace l)
      else if c == '/' && peek l == some '/' then
        getNextToken fuel (skipComment (advance (advance l)))
      else if c.isDigit then
        let (ds, l') := readNumber l
        .ok ({ type := .NUMBER, value := String.mk ds, line := l.line, column := l.column }, l')
      else if c.isAlpha || c == '_' then
        let (ds, l') := readIdentifier l
        let value := String.mk ds
        .ok ({ type := keywordLookup value, value := value, line := l.line, column := l.column }, l')
      else if c == '"' || c == '\'' then
        let (ds, l') := readString l
        .ok ({ type := .STRING, value := String.mk ds, line := l.line, column := l.column }, l')
      else if c == '=' && peek l == some '>' then
        let l2 := advance (advance l)
        .ok ({ type := .ARROW, value := "->", line := l2.line, column := l2.column - 1 }, l2)
      else if c == '-' && peek l == some '>' then
        let l2 := advance (advance l)
        .ok ({ type := .ARROW, value := "->", line := l2.line, column := l2.column - 1 }, l2)
      else if c == '=' && peek l == some '=' then
        let l2 := advance (advance l)
        .ok ({ type := .EQ, value := "==", line := l2.line, column := l2.column - 1 }, l2)
      else if c == '!' && peek l == some '=' then
        let l2 := advance (advance l)
        .ok ({ type := .NEQ, value := "!=", line := l2.line, column := l2.column - 1 }, l2)
      else if c == '<' && peek l == some '=' then
        let l2 := advance (advance l)
        .ok ({ type := .LTE, value := "<=", line := l2.line, column := l2.column - 1 }, l2)
      else if c == '>' && peek l == some '=' then
        let l2 := advance (advance l)
        .ok ({ type := .GTE, value := ">=", line := l2.line, column := l2.column - 1 }, l2)
      else if c == '&' && peek l == some '&' then
        let l2 := advance (advance l)
        .ok ({ type := .AND, value := "&&", line := l2.line, column := l2.column - 1 }, l2)
      else if c == '|' && peek l == some '|' then
        let l2 := advance (advance l)
        .ok ({ type := .OR, value := "||", line := l2.line, column := l2.column - 1 }, l2)
      else
        match singleCharToken c with
        | some t =>
          .ok ({ type := t, value := String.mk [c], line := l.line, column := l.column }, advance l)
        | none => .error (.illegalChar c l.line l.column)

/-- The token stream from a lexer state: `get_next_token` repeatedly
until (and including) the EOF token. -/
def tokenize : Nat → LexState → Except LexError (List Token)
  | 0, _ => .error .outOfFuel
  | fuel+1, l => do
    let (t, l') ← getNextToken (fuel+1) l
    if t.type = .EOF then pure [t]
    else do
      let rest ← tokenize fuel l'
      pure (t :: rest)

/-- Lex a whole string from a fresh `Lexer`. -/
def tokenizeText (fuel : Nat) (text : List Char) : Except LexError (List Token) :=
  tokenize fuel (LexState.init text)

end BasicLexer

namespace OptLexer

/-- `OptimizedLexer.skip_whitespace`: membership in
`WHITESPACE_CHARS`. -/
def skipWhitespaceAux : Nat → LexState → LexState
  | 0, l => l
  | fuel+1, l =>
    match currentChar l with
    | some c =>
      if WHITESPACE_CHARS.contains c then skipWhitespaceAux fuel (advance l) else l
    | none => l

def skipWhitespace (l : LexState) : LexState :=
  skipWhitespaceAux (l.text.length - l.pos + 1) l

/-- The digit-run loop shared by both halves of
`OptimizedLexer.read_number`: advance while the current character is in
`DIGIT_CHARS`. -/
def skipDigitsAux : Nat → LexState → LexState
  | 0, l => l
  | fuel+1, l =>
    match currentChar l with
    | some c => if c.isDigit then skipDigitsAux fuel (advance l) else l
    | none => l

def skipDigits (l : LexState) : LexState :=
  skipDigitsAux (l.text.length - l.pos + 1) l

/-- `OptimizedLexer.read_number`: a digit run, then — when the current
character is `.` and the char after it is a digit — the decimal point
and a second digit run; the lexeme is the slice
`text[start_pos:pos]`. -/
def readNumber (l : LexState) : List Char × LexState :=
  let l1 := skipDigits l
  let l2 :=
    if currentChar l1 == some '.' &&
        (match peek l1 with | some d => d.isDigit | none => false) then
      skipDigits (advance l1)
    else l1
  (slice l.text l.pos l2.pos, l2)

/-- `OptimizedLexer.read_identifier`: advance while in `LETTER_CHARS`
or `DIGIT_CHARS`, slice the lexeme. -/
def skipIdentAux : Nat → LexState → LexState
  | 0, l => l
  | fuel+1, l =>
    match currentChar l with
    | some c => if optIsLetter c || c.isDigit then skipIdentAux fuel (advance l) else l
    | none => l

def skipIdent (l : LexState) : LexState :=
  skipIdentAux (l.text.length - l.pos + 1) l

def readIdentifier (l : LexState) : List Char × LexState :=
  let l1 := skipIdent l
  (slice l.text l.pos l1.pos, l1)

/-- The body loop of `OptimizedLexer.read_string`: identical to the
basic lexer's EXCEPT that on a backslash BOTH the backslash and the
following character are appended (`chars.append('\\');
chars.append(self.current_char)`). -/
def readStringBodyAux : Nat → Char → LexState → List Char × LexState
  | 0, _, l => ([], l)
  | fuel+1, q, l =>
    match currentChar l with
    | none => ([], l)
    | some c =>
      if c == q then ([], l)
      else if c == '\\' then
        match currentChar (advance l) with
        | none => ([], advance l)
        | some c2 =>
          let (cs, l2) := readStringBodyAux fuel q (advance (advance l))
          ('\\' :: c2 :: cs, l2)
      else
        let (cs, l2) := readStringBodyAux fuel q (advance l)
        (c :: cs, l2)

def readStringBody (q : Char) (l : LexState) : List Char × LexState :=
  readStringBodyAux (l.text.length - l.pos + 1) q l

/-- `OptimizedLexer.read_string`. -/
def readString (l : LexState) : List Char × LexState :=
  match currentChar l with
  | none => ([], l)
  | some q =>
    let (cs, l2) := readStringBody q (advance l)
    let l3 := if currentChar l2 == some q then advance l2 else l2
    (cs, l3)

/-- `OptimizedLexer.DOUBLE_CHAR_OPERATORS`: note it contains `=>` but
NOT `->`, and the token keeps the two-character lexeme as scanned. -/
def doubleCharOperator (a b : Char) : Option TokType :=
  if a == '=' && b == '>' then some .ARROW
  else if a == '=' && b == '=' then some .EQ
  else if a == '!' && b == '=' then some .NEQ
  else if a == '<' && b == '=' then some .LTE
  else if a == '>' && b == '=' then some .GTE
  else if a == '&' && b == '&' then some .AND
  else if a == '|' && b == '|' then some .OR
  else none

/-- `OptimizedLexer.get_next_token` (optimized_lexer.py 259-313).
Branch order: whitespace, comment, number, identifier/keyword, string,
double-character operators (via the lookup table), single-character
tokens, illegal character.  EVERY token is stamped with `start_line` /
`start_col` recorded before consumption (token pooling affects only
object identity, not the token fields). -/
def getNextToken : Nat → LexState → Except LexError (Token × LexState)
  | 0, _ => .error .outOfFuel
  | fuel+1, l =>
    match currentChar l with
    | none => .ok ({ type := .EOF, value := "", line := l.line, column := l.column }, l)
    | some c =>
      if WHITESPACE_CHARS.contains c then getNextToken fuel (skipWhitespace l)
      else if c == '/' && peek l == some '/' then
        getNextToken fuel (skipComment (advance (advance l)))
      else if c.isDigit then
        let (ds, l') := readNumber l
        .ok ({ type := .NUMBER, value := String.mk ds, line := l.line, column := l.column }, l')
      else if optIsLetter c then
        let (ds, l') := readIdentifier l
        let value := String.mk ds
        .ok ({ type := keywordLookup value, value := value, line := l.line, column := l.column }, l')
      else if c == '"' || c == '\'' then
        let (ds, l') := readString l
        .ok ({ type := .STRING, value := String.mk ds, line := l.line, column := l.column }, l')
      else
        match peek l with
        | some nc =>
          match doubleCharOperator c nc with
          | some t =>
            .ok ({ type := t, value := String.mk [c, nc], line := l.line, column := l.column },
              advance (advance l))
          | none =>
            match singleCharToken c with
            | some t =>
              .ok ({ type := t, value := String.mk [c], line := l.line, column := l.column },
                advance l)
            | none => .error (.illegalChar c l.line l.column)
        | none =>
          match singleCharToken c with
          | some t =>
            .ok ({ type := t, value := String.mk [c], line := l.line, column := l.column },
              advance l)
          | none => .error (.illegalChar c l.line l.column)

/-- The token stream from a lexer state. -/
def tokenize : Nat → LexState → Except LexError (List Token)
  | 0, _ => .error .outOfFuel
  | fuel+1, l => do
    let (t, l') ← getNextToken (fuel+1) l
    if t.type = .EOF then pure [t]
    else do
      let rest ← tokenize fuel l'
      pure (t :: rest)

/-- Lex a whole string from a fresh `OptimizedLexer`. -/
def tokenizeText (fuel : Nat) (text : List Char) : Except LexError (List Token) :=
  tokenize fuel (LexState.init text)

end OptLexer

/-- `TokenType.name` (the enum member name used in parser error
messages). -/
def TokType.name : TokType → String
  | .IDENTIFIER => "IDENTIFIER"
  | .NUMBER => "NUMBER"
  | .STRING => "STRING"
  | .FN => "FN"
  | .LET => "LET"
  | .VAR => "VAR"
  | .CONST => "CONST"
  | .IF => "IF"
  | .ELSE => "ELSE"
  | .WHILE => "WHILE"
  | .FOR => "FOR"
  | .IN => "IN"
  | .RETURN => "RETURN"
  | .MATCH => "MATCH"
  | .ASYNC => "ASYNC"
  | .AWAIT => "AWAIT"
  | .TRUE => "TRUE"
  | .FALSE => "FALSE"
  | .PLUS => "PLUS"
  | .MINUS => "MINUS"
  | .MULTIPLY => "MULTIPLY"
  | .DIVIDE => "DIVIDE"
  | .MODULO => "MODULO"
  | .ASSIGN => "ASSIGN"
  | .EQ => "EQ"
  | .NEQ => "NEQ"
  | .LT => "LT"
  | .GT => "GT"
  | .LTE => "LTE"
  | .GTE => "GTE"
  | .AND => "AND"
  | .OR => "OR"
  | .NOT => "NOT"
  | .LPAREN => "LPAREN"
  | .RPAREN => "RPAREN"
  | .LBRACE => "LBRACE"
  | .RBRACE => "RBRACE"
  | .LBRACKET => "LBRACKET"
  | .RBRACKET => "RBRACKET"
  | .COMMA => "COMMA"
  | .COLON => "COLON"
  | .ARROW => "ARROW"
  | .DOT => "DOT"
  | .SEMICOLON => "SEMICOLON"
  | .EOF => "EOF"

/-- `int(value)` on the digit-run lexeme of a NUMBER token. -/
def digitsToInt (s : String) : Int :=
  Int.ofNat (s.toList.foldl (fun n c => n * 10 + (c.toNat - 48)) 0)

/-! ## The source-language parser (`clarity_parser.py` 407-822)

The parser owns the basic `Lexer` plus the one-token lookahead
`self.current_token`.  `get_next_token` is fueled; the wrapper
`BasicLexer.nextToken` supplies fuel that always suffices (each
whitespace/comment stretch consumes at least one character). -/

/-- `Lexer.get_next_token` with always-sufficient fuel. -/
def BasicLexer.nextToken (l : LexState) : Except LexError (Token × LexState) :=
  BasicLexer.getNextToken (l.text.length - l.pos + 1) l

namespace Parser

/-- Parser failures: the `Exception`s raised by `eat`, `parse_primary`
and `parse_match_expr`, a propagated lexer error, or the fuel
artifact. -/
inductive ParseError where
  | syntaxError (msg : String)
  | lexError (e : LexError)
  | outOfFuel
deriving DecidableEq, Repr

/-- Parser state: the owned lexer and `self.current_token`. -/
structure PState where
  lexer : LexState
  current_token : Token
deriving DecidableEq, Repr

/-- The parsing effect: parser-state threading with exceptions. -/
def PM (α : Type) : Type := PState → Except ParseError (α × PState)

instance : Monad PM where
  pure a := fun p => .ok (a, p)
  bind x f := fun p =>
    match x p with
    | .ok (a, p') => f a p'
    | .error e => .error e

def throwP {α : Type} (e : ParseError) : PM α := fun _ => .error e

def getP : PM PState := fun p => .ok (p, p)

def setP (p' : PState) : PM Unit := fun _ => .ok ((), p')

/-- The current token's type. -/
def curType : PM TokType := fun p => .ok (p.current_token.type, p)

/-- The current token's lexeme. -/
def curValue : PM String := fun p => .ok (p.current_token.value, p)

/-- `Parser.eat`: consume a token of the expected type and pull the
next one from the lexer, or raise. -/
def eat (token_type : TokType) : PM Unit := fun p =>
  if p.current_token.type = token_type then
    match BasicLexer.nextToken p.lexer with
    | .ok (t, l') => .ok ((), { lexer := l', current_token := t })
    | .error e => .error (.lexError e)
  else
    .error (.syntaxError ("Expected token " ++ token_type.name ++ ", got " ++
      p.current_token.type.name))

/-- `Parser.__init__`: prime `current_token` from the lexer. -/
def PState.init (l : LexState) : Except ParseError PState :=
  match BasicLexer.nextToken l with
  | .ok (t, l') => .ok { lexer := l', current_token := t }
  | .error e => .error (.lexError e)

/-- The identifier-statement lookahead of `Parser.parse_statement`
(clarity_parser.py 455-462): save `pos` and `current_char`, scan one
token ahead, then write back the SAVED `pos` / `current_char` while
KEEPING the line and column counters the scan-ahead left behind.  In
this model `current_char` is derived from `pos`, so restoring `pos`
restores both saved fields. -/
def identLookahead (l : LexState) : Except LexError (Token × LexState) :=
  match BasicLexer.nextToken l with
  | .ok (next_token, l') => .ok (next_token, { l' with pos := l.pos })
  | .error e => .error e

/-- `expr.name if hasattr(expr, 'name') else expr.value` when
`parse_call` wraps a callee into a `FunctionCall`.  Nodes with neither
attribute raise (`AttributeError` in Python); literal `.value` callees
(never a string-named function in any claim) are rendered. -/
def calleeName : Node → Except ParseError String
  | .ident name => .ok name
  | .functionCall name _ => .ok name
  | .functionDef name _ _ _ => .ok name
  | .variableDecl _ name _ _ => .ok name
  | .constantDecl name _ => .ok name
  | .assignment name _ => .ok name
  | .strLit value => .ok value
  | .number value => .ok (toString value)
  | .boolean value => .ok (if value then "True" else "False")
  | _ => .error (.syntaxError "callee has neither name nor value attribute")

mutual

/-- `Parser.parse_statement`: dispatch on the leading token type.  A
bare identifier triggers the `identLookahead` peek; afterwards
`current_token` is REBUILT as `Token(IDENTIFIER, ident_name,
self.lexer.line, self.lexer.column)` — stamped with the post-peek line
and column. -/
def parseStatement : Nat → PM Node
  | 0 => throwP .outOfFuel
  | fuel+1 => do
    let p ← getP
    match p.current_token.type with
    | .FN => parseFunctionDef fuel
    | .LET => parseVariableDecl fuel false
    | .VAR => parseVariableDecl fuel true
    | .CONST => parseConstantDecl fuel
    | .IF => parseIfExpr fuel
    | .WHILE => parseWhileLoop fuel
    | .FOR => parseForLoop fuel
    | .RETURN => parseReturnStmt fuel
    | .MATCH => parseMatchExpr fuel
    | .IDENTIFIER => do
      let ident_name := p.current_token.value
      match identLookahead p.lexer with
      | .error e => throwP (.lexError e)
      | .ok (next_token, lexer') => do
        setP { lexer := lexer',
               current_token := { type := .IDENTIFIER, value := ident_name,
                                  line := lexer'.line, column := lexer'.column } }
        if next_token.type = .ASSIGN then do
          eat .IDENTIFIER
          eat .ASSIGN
          let value ← parseExpression fuel
          let t ← curType
          if t = .SEMICOLON then eat .SEMICOLON
          pure (.assignment ident_name value)
        else do
          let expr ← parseExpression fuel
          let t ← curType
          if t = .SEMICOLON then eat .SEMICOLON
          pure expr
    | _ => do
      let expr ← parseExpression fuel
      let t ← curType
      if t = .SEMICOLON then eat .SEMICOLON
      pure expr

/-- The `while self.current_token.type != TokenType.RBRACE` statement
loops of function bodies, `if` branches, `while`, `for` and `match`
bodies. -/
def parseBlockBody : Nat → PM (List Node)
  | 0 => throwP .outOfFuel
  | fuel+1 => do
    let t ← curType
    if t = .RBRACE then pure []
    else do
      let stmt ← parseStatement fuel
      let rest ← parseBlockBody fuel
      pure (stmt :: rest)

/-- `Parser.parse_function_def`. -/
def parseFunctionDef : Nat → PM Node
  | 0 => throwP .outOfFuel
  | fuel+1 => do
    eat .FN
    let func_name ← curValue
    eat .IDENTIFIER
    eat .LPAREN
    let t ← curType
    let params ← if t ≠ .RPAREN then parseParams fuel else pure []
    eat .RPAREN
    let t2 ← curType
    let return_type ←
      if t2 = .ARROW then do
        eat .ARROW
        let rt ← curValue
        eat .IDENTIFIER
        pure (some rt)
      else pure none
    eat .LBRACE
    let body ← parseBlockBody fuel
    eat .RBRACE
    pure (.functionDef func_name params return_type body)

/-- The parameter loop of `parse_function_def`. -/
def parseParams : Nat → PM (List (String × String))
  | 0 => throwP .outOfFuel
  | fuel+1 => do
    let param_name ← curValue
    eat .IDENTIFIER
    eat .COLON
    let param_type ← curValue
    eat .IDENTIFIER
    let t ← curType
    if t = .RPAREN then pure [(param_name, param_type)]
    else do
      eat .COMMA
      let rest ← parseParams fuel
      pure ((param_name, param_type) :: rest)

/-- `Parser.parse_variable_decl`. -/
def parseVariableDecl : Nat → Bool → PM Node
  | 0, _ => throwP .outOfFuel
  | fuel+1, mutable => do
    if mutable then eat .VAR else eat .LET
    let name ← curValue
    eat .IDENTIFIER
    let t ← curType
    let var_type ←
      if t = .COLON then do
        eat .COLON
        let vt ← curValue
        eat .IDENTIFIER
        pure (some vt)
      else pure none
    eat .ASSIGN
    let value ← parseExpression fuel
    let t2 ← curType
    if t2 = .SEMICOLON then eat .SEMICOLON
    pure (.variableDecl mutable name var_type value)

/-- `Parser.parse_constant_decl`. -/
def parseConstantDecl : Nat → PM Node
  | 0 => throwP .outOfFuel
  | fuel+1 => do
    eat .CONST
    let name ← curValue
    eat .IDENTIFIER
    eat .ASSIGN
    let value ← parseExpression fuel
    let t ← curType
    if t = .SEMICOLON then eat .SEMICOLON
    pure (.constantDecl name value)

/-- `Parser.parse_if_expr`. -/
def parseIfExpr : Nat → PM Node
  | 0 => throwP .outOfFuel
  | fuel+1 => do
    eat .IF
    let condition ← parseExpression fuel
    eat .LBRACE
    let then_body ← parseBlockBody fuel
    eat .RBRACE
    let t ← curType
    if t = .ELSE then do
      eat .ELSE
      eat .LBRACE
      let else_body ← parseBlockBody fuel
      eat .RBRACE
      pure (.ifExpr condition then_body (some else_body))
    else
      pure (.ifExpr condition then_body none)

/-- `Parser.parse_while_loop`. -/
def parseWhileLoop : Nat → PM Node
  | 0 => throwP .outOfFuel
  | fuel+1 => do
    eat .WHILE
    let condition ← parseExpression fuel
    eat .LBRACE
    let body ← parseBlockBody fuel
    eat .RBRACE
    pure (.whileLoop condition body)

/-- `Parser.parse_for_loop`. -/
def parseForLoop : Nat → PM Node
  | 0 => throwP .outOfFuel
  | fuel+1 => do
    eat .FOR
    let var_name ← curValue
    eat .IDENTIFIER
    eat .IN
    let iterable ← parseExpression fuel
    eat .LBRACE
    let body ← parseBlockBody fuel
    eat .RBRACE
    pure (.forLoop var_name iterable body)

/-- `Parser.parse_return_stmt`. -/
def parseReturnStmt : Nat → PM Node
  | 0 => throwP .outOfFuel
  | fuel+1 => do
    eat .RETURN
    let t ← curType
    let value ←
      if t ≠ .SEMICOLON ∧ t ≠ .RBRACE then do
        let v ← parseExpression fuel
        pure (some v)
      else pure none
    let t2 ← curType
    if t2 = .SEMICOLON then eat .SEMICOLON
    pure (.returnStmt value)

/-- `Parser.parse_match_expr`. -/
def parseMatchExpr : Nat → PM Node
  | 0 => throwP .outOfFuel
  | fuel+1 => do
    eat .MATCH
    let expr ← parseExpression fuel
    eat .LBRACE
    let arms ← parseMatchArms fuel
    eat .RBRACE
    pure (.matchExpr expr arms)

/-- The arm loop of `parse_match_expr`. -/
def parseMatchArms : Nat → PM (List (Node × Node))
  | 0 => throwP .outOfFuel
  | fuel+1 => do
    let p ← getP
    if p.current_token.type = .RBRACE then pure []
    else do
      let pattern ←
        if p.current_token.type = .IDENTIFIER ∨ p.current_token.type = .NUMBER ∨
            p.current_token.type = .STRING then
          parsePrimary fuel
        else
          throwP (.syntaxError ("Invalid pattern in match at " ++
            toString p.current_token.line ++ ":" ++ toString p.current_token.column))
      eat .ARROW
      let result ← parseExpression fuel
      let p2 ← getP
      if p2.current_token.type = .COMMA then do
        eat .COMMA
        let rest ← parseMatchArms fuel
        pure ((pattern, result) :: rest)
      else if p2.current_token.type = .RBRACE then
        pure [(pattern, result)]
      else
        throwP (.syntaxError ("Expected comma or closing brace in match expression at " ++
          toString p2.current_token.line ++ ":" ++ toString p2.current_token.column))

/-- `Parser.parse_expression`. -/
def parseExpression : Nat → PM Node
  | 0 => throwP .outOfFuel
  | fuel+1 => parseLogicalOr fuel

/-- `Parser.parse_logical_or`. -/
def parseLogicalOr : Nat → PM Node
  | 0 => throwP .outOfFuel
  | fuel+1 => do
    let left ← parseLogicalAnd fuel
    parseLogicalOrLoop fuel left

/-- The `while ... == TokenType.OR` loop of `parse_logical_or`,
left-associating each match into a `BinaryOp(left, op.value, right)`. -/
def parseLogicalOrLoop : Nat → Node → PM Node
  | 0, _ => throwP .outOfFuel
  | fuel+1, left => do
    let p ← getP
    if p.current_token.type = .OR then do
      let op_value := p.current_token.value
      eat .OR
      let right ← parseLogicalAnd fuel
      parseLogicalOrLoop fuel (.binaryOp left op_value right)
    else pure left

/-- `Parser.parse_logical_and`. -/
def parseLogicalAnd : Nat → PM Node
  | 0 => throwP .outOfFuel
  | fuel+1 => do
    let left ← parseEquality fuel
    parseLogicalAndLoop fuel left

/-- The operator loop of `parse_logical_and`. -/
def parseLogicalAndLoop : Nat → Node → PM Node
  | 0, _ => throwP .outOfFuel
  | fuel+1, left => do
    let p ← getP
    if p.current_token.type = .AND then do
      let op_value := p.current_token.value
      eat .AND
      let right ← parseEquality fuel
      parseLogicalAndLoop fuel (.binaryOp left op_value right)
    else pure left

/-- `Parser.parse_equality`. -/
def parseEquality : Nat → PM Node
  | 0 => throwP .outOfFuel
  | fuel+1 => do
    let left ← parseComparison fuel
    parseEqualityLoop fuel left

/-- The operator loop of `parse_equality` (`==`, `!=`). -/
def parseEqualityLoop : Nat → Node → PM Node
  | 0, _ => throwP .outOfFuel
  | fuel+1, left => do
    let p ← getP
    if p.current_token.type = .EQ ∨ p.current_token.type = .NEQ then do
      let op_value := p.current_token.value
      eat p.current_token.type
      let right ← parseComparison fuel
      parseEqualityLoop fuel (.binaryOp left op_value right)
    else pure left

/-- `Parser.parse_comparison`. -/
def parseComparison : Nat → PM Node
  | 0 => throwP .outOfFuel
  | fuel+1 => do
    let left ← parseTerm fuel
    parseComparisonLoop fuel left

/-- The operator loop of `parse_comparison` (`<`, `>`, `<=`, `>=`). -/
def parseComparisonLoop : Nat → Node → PM Node
  | 0, _ => throwP .outOfFuel
  | fuel+1, left => do
    let p ← getP
    if p.current_token.type = .LT ∨ p.current_token.type = .GT ∨
        p.current_token.type = .LTE ∨ p.current_token.type = .GTE then do
      let op_value := p.current_token.value
      eat p.current_token.type
      let right ← parseTerm fuel
      parseComparisonLoop fuel (.binaryOp left op_value right)
    else pure left

/-- `Parser.parse_term`. -/
def parseTerm : Nat → PM Node
  | 0 => throwP .outOfFuel
  | fuel+1 => do
    let left ← parseFactor fuel
    parseTermLoop fuel left

/-- The operator loop of `parse_term` (`+`, `-`). -/
def parseTermLoop : Nat → Node → PM Node
  | 0, _ => throwP .outOfFuel
  | fuel+1, left => do
    let p ← getP
    if p.current_token.type = .PLUS ∨ p.current_token.type = .MINUS then do
      let op_value := p.current_token.value
      eat p.current_token.type
      let right ← parseFactor fuel
      parseTermLoop fuel (.binaryOp left op_value right)
    else pure left

/-- `Parser.parse_factor`. -/
def parseFactor : Nat → PM Node
  | 0 => throwP .outOfFuel
  | fuel+1 => do
    let left ← parseUnary fuel
    parseFactorLoop fuel left

/-- The operator loop of `parse_factor` (`*`, `/`). -/
def parseFactorLoop : Nat → Node → PM Node
  | 0, _ => throwP .outOfFuel
  | fuel+1, left => do
    let p ← getP
    if p.current_token.type = .MULTIPLY ∨ p.current_token.type = .DIVIDE then do
      let op_value := p.current_token.value
      eat p.current_token.type
      let right ← parseUnary fuel
      parseFactorLoop fuel (.binaryOp left op_value right)
    else pure left

/-- `Parser.parse_unary`. -/
def parseUnary : Nat → PM Node
  | 0 => throwP .outOfFuel
  | fuel+1 => do
    let p ← getP
    if p.current_token.type = .MINUS ∨ p.current_token.type = .NOT then do
      let op_value := p.current_token.value
      eat p.current_token.type
      let operand ← parseUnary fuel
      pure (.unaryOp op_value operand)
    else parseCall fuel

/-- `Parser.parse_call`: a primary followed by any number of
parenthesized argument lists. -/
def parseCall : Nat → PM Node
  | 0 => throwP .outOfFuel
  | fuel+1 => do
    let expr ← parsePrimary fuel
    parseCallLoop fuel expr

/-- The `while self.current_token.type == TokenType.LPAREN` loop of
`parse_call`. -/
def parseCallLoop : Nat → Node → PM Node
  | 0, _ => throwP .outOfFuel
  | fuel+1, expr => do
    let t ← curType
    if t = .LPAREN then do
      eat .LPAREN
      let t2 ← curType
      let args ← if t2 ≠ .RPAREN then parseArgs fuel else pure []
      eat .RPAREN
      match calleeName expr with
      | .ok name => parseCallLoop fuel (.functionCall name args)
      | .error e => throwP e
    else pure expr

/-- The argument loop of `parse_call`. -/
def parseArgs : Nat → PM (List Node)
  | 0 => throwP .outOfFuel
  | fuel+1 => do
    let arg ← parseExpression fuel
    let t ← curType
    if t = .RPAREN then pure [arg]
    else do
      eat .COMMA
      let rest ← parseArgs fuel
      pure (arg :: rest)

/-- `Parser.parse_primary`. -/
def parsePrimary : Nat → PM Node
  | 0 => throwP .outOfFuel
  | fuel+1 => do
    let p ← getP
    match p.current_token.type with
    | .NUMBER => do
      eat .NUMBER
      pure (.number (digitsToInt p.current_token.value))
    | .STRING => do
      eat .STRING
      pure (.strLit p.current_token.value)
    | .TRUE => do
      eat .TRUE
      pure (.boolean true)
    | .FALSE => do
      eat .FALSE
      pure (.boolean false)
    | .IDENTIFIER => do
      eat .IDENTIFIER
      pure (.ident p.current_token.value)
    | .LPAREN => do
      eat .LPAREN
      let expr ← parseExpression fuel
      eat .RPAREN
      pure expr
    | _ => throwP (.syntaxError ("Unexpected token: " ++ p.current_token.type.name))

end

/-- `Parser.parse_program`: statements until EOF. -/
def parseProgramLoop : Nat → PM (List Node)
  | 0 => throwP .outOfFuel
  | fuel+1 => do
    let t ← curType
    if t = .EOF then pure []
    else do
      let stmt ← parseStatement fuel
      let rest ← parseProgramLoop fuel
      pure (stmt :: rest)

/-- Lex and parse a whole program: `Parser(Lexer(text)).parse_program()`. -/
def parseProgram (fuel : Nat) (text : List Char) : Except ParseError Node :=
  match PState.init (LexState.init text) with
  | .error e => .error e
  | .ok p =>
    match parseProgramLoop fuel p with
    | .ok (stmts, _) => .ok (.program stmts)
    | .error e => .error e

end Parser

/-- `run_file` without the I/O: lex, parse, interpret. -/
def runProgram (fuel : Nat) (text : List Char) :
    Except Parser.ParseError (Except PyError Value × InterpState) :=
  match Parser.parseProgram fuel text with
  | .error e => .error e
  | .ok ast => .ok (interpret fuel ast)

/-! ## Observation helpers for the lexer claims -/

/-- The position-free part of a token: kind and lexeme. -/
def tokenShape (t : Token) : TokType × String := (t.type, t.value)

/-- The position-free part of a lexer error. -/
def lexErrorChar : LexError → Option Char
  | .illegalChar c _ _ => some c
  | .outOfFuel => none

/-- The position-free observation of one `get_next_token` step: kind,
lexeme and the position the scan stopped at. -/
def stepShape : Except LexError (Token × LexState) → Except (Option Char) ((TokType × String) × Nat)
  | .ok (t, l') => .ok ((t.type, t.value), l'.pos)
  | .error e => .error (lexErrorChar e)

/-- The position-free observation of a token stream. -/
def streamShape : Except LexError (List Token) → Except (Option Char) (List (TokType × String))
  | .ok ts => .ok (ts.map tokenShape)
  | .error e => .error (lexErrorChar e)

/-! ## The common fragment of the two lexers

The two lexers agree outside their four divergences (float literals,
`->`/`=>`, string escapes, two-character operator columns, and the
`\x1c`-`\x1f` whitespace reading).  `cleanText` carves out the fragment
on which they are proved token-for-token identical: ASCII text without
backslashes or the `\x1c`-`\x1f` separators, without any two-character
operator digraph, and without a digit-dot-digit run. -/

/-- A character both lexers treat alike on its own: ASCII, not a
backslash, not one of the `\x1c`-`\x1f` separator controls (which
Python `isspace` accepts but `WHITESPACE_CHARS` does not). -/
def cleanChar (c : Char) : Bool :=
  c.val < 128 && !(c == '\\') && !(28 ≤ c.val && c.val ≤ 31)

/-- No two-character operator digraph starts at this pair. -/
def cleanPair (a b : Char) : Bool :=
  !(a == '=' && b == '>') && !(a == '-' && b == '>') &&
  !(a == '=' && b == '=') && !(a == '!' && b == '=') &&
  !(a == '<' && b == '=') && !(a == '>' && b == '=') &&
  !(a == '&' && b == '&') && !(a == '|' && b == '|')

/-- No digit-dot-digit run starts at this triple (the float-literal
divergence of the optimized lexer). -/
def cleanTriple (a b : Char) : Option Char → Bool
  | some c => !(a.isDigit && b == '.' && c.isDigit)
  | none => true

/-- The common fragment: every character clean, every adjacent pair
digraph-free, every adjacent triple float-free. -/
def cleanText : List Char → Bool
  | [] => true
  | [c] => cleanChar c
  | a :: b :: rest =>
    cleanChar a && cleanPair a b && cleanTriple a b rest.head? && cleanText (b :: rest)

/-! ## Concrete example programs used by the claims -/

/-- The AST of `fn add(a: Int, b: Int) -> Int \x7b return a + b; \x7d
let r = add(2, 3);` as produced by the embedded parser. -/
def addProgramAst : Node := .program
  [ .functionDef "add" [("a", "Int"), ("b", "Int")] (some "Int")
      [.returnStmt (some (.binaryOp (.ident "a") "+" (.ident "b")))],
    .variableDecl false "r" none (.functionCall "add" [.number 2, .number 3]) ]

/-- The same program with the call `add(1)` (wrong arity). -/
def addWrongArityAst : Node := .program
  [ .functionDef "add" [("a", "Int"), ("b", "Int")] (some "Int")
      [.returnStmt (some (.binaryOp (.ident "a") "+" (.ident "b")))],
    .variableDecl false "r" none (.functionCall "add" [.number 1]) ]

/-- The AST of `fn f() \x7b if true \x7b return 1; \x7d 2 \x7d f()`:
a function whose body holds a `return` nested inside an `if`, followed
by one more statement. -/
def nestedReturnAst : Node := .program
  [ .functionDef "f" [] none
      [ .ifExpr (.boolean true) [.returnStmt (some (.number 1))] none,
        .number 2 ],
    .functionCall "f" [] ]

/-- The AST of the loop `for x in xs \x7b println(x); \x7d`. -/
def forLoopTraceAst : Node :=
  .forLoop "x" (.ident "xs") [.functionCall "println" [.ident "x"]]

/-- The AST of `for x in xs \x7b if x > 1 \x7b y; \x7d let y = x; \x7d`:
the body defines `y` in each iteration and reads it (before defining
it) from the second iteration on. -/
def forLoopScopeAst : Node :=
  .forLoop "x" (.ident "xs")
    [ .ifExpr (.binaryOp (.ident "x") ">" (.number 1)) [.ident "y"] none,
      .variableDecl false "y" none (.ident "x") ]

/-- An interpreter state whose current environment binds `xs` to the
list `[1, 2, 3]`, over a global frame holding `println`. -/
def xsState : InterpState :=
  { frames := [[("xs", Value.list [Value.num (PyNum.ofInt 1), Value.num (PyNum.ofInt 2),
                  Value.num (PyNum.ofInt 3)])],
               [("println", Value.builtin .printlnFn)]]
    output := [] }

/-- A stored proof none of whose hashes the verifying hash function can
reproduce: the constant hash used with it returns `"recomputed"`
everywhere, so `verify_proof` is false on any input pair. -/
def mismatchedProof : TranslationProof :=
  { clarity_source := "src"
    boc_target := Json.null
    translator_version := "2.0-enhanced"
    timestamp := "t"
    source_hash := "h-src"
    target_hash := "h-tgt"
    proof_hash := "h-proof" }

/-- Removal of the escape backslashes from a scanned string-body: the
observation relating the two lexers' string lexemes (`result +=
self.current_char` in the basic lexer versus `chars.append('\\');
chars.append(self.current_char)` in the optimized one).  A backslash
with nothing after it marks an escape cut off by end of input, which
both lexers drop. -/
def removeEscapes : List Char → List Char
  | [] => []
  | c :: rest =>
    if c == '\\' then
      match rest with
      | [] => []
      | c2 :: rest2 => c2 :: removeEscapes rest2
    else c :: removeEscapes rest

end ClarityLang

/-! ## Theorems

All definitions above; the claims C1-C10 and their supporting lemmas
below. -/

open ClarityLang

/-! ### Monad unfolding lemmas for the interpreter effect -/

theorem Interp.bind_apply {α β : Type} (x : Interp α) (f : α → Interp β) (s : InterpState) :
    (x >>= f) s =
      match x s with
      | (.ok a, s') => f a s'
      | (.error e, s') => (.error e, s') := rfl

theorem Interp.pure_apply {α : Type} (a : α) (s : InterpState) :
    (pure a : Interp α) s = (.ok a, s) := rfl

theorem visit_number (fuel : Nat) (n : Int) (s : InterpState) :
    visit (fuel+1) (Node.number n) s = (.ok (Value.num (PyNum.ofInt n)), s) := rfl

/-! ### C8: division by zero -/

/-- C8: for every pair of evaluated operands, a division whose right
operand evaluates to (Python-)zero raises the fatal
`ZeroDivisionError("Division by zero")`; the evaluation produces an
error, not a value — and the interpreter's value type has no infinity
or NaN at all. -/
theorem claim_C8_division_by_zero_raises
    (fuel : Nat) (left right : Node) (s s1 s2 : InterpState) (lv rv : Value)
    (hl : visit fuel left s = (.ok lv, s1))
    (hr : visit fuel right s1 = (.ok rv, s2))
    (hz : pyEq rv (Value.num (PyNum.ofInt 0)) = true) :
    visit (fuel+1) (Node.binaryOp left "/" right) s =
      (.error (PyError.zeroDivisionError "Division by zero"), s2) := by
  simp only [visit, Interp.bind_apply, hl, hr]
  simp [applyBinary, ofExceptPy, throwPy, hz]

/-- Witness for C8 at the spec's example `10 / 0`. -/
theorem claim_C8_division_by_zero_raises_witness :
    visit 1 (Node.number 10) initState = (.ok (Value.num (PyNum.ofInt 10)), initState) ∧
    visit 1 (Node.number 0) initState = (.ok (Value.num (PyNum.ofInt 0)), initState) ∧
    pyEq (Value.num (PyNum.ofInt 0)) (Value.num (PyNum.ofInt 0)) = true ∧
    visit 2 (Node.binaryOp (Node.number 10) "/" (Node.number 0)) initState =
      (.error (PyError.zeroDivisionError "Division by zero"), initState) :=
  ⟨rfl, rfl, by decide,
    claim_C8_division_by_zero_raises 1 (Node.number 10) (Node.number 0)
      initState initState initState (Value.num (PyNum.ofInt 10)) (Value.num (PyNum.ofInt 0)) rfl rfl (by decide)⟩

/-! ### C4: the `add` program and exact arity checking

`addProgramAst` is the AST that `Parser(Lexer(...)).parse_program()`
produces for the spec's program text
`fn add(a: Int, b: Int) -> Int \x7b return a + b; \x7d let r = add(2, 3);`
(the claim's cited code is the interpreter's `visit_FunctionCall`);
`addWrongArityAst` likewise for the `add(1)` variant. -/

/-- C4: interpreting the spec's `add` program yields `5` and binds `r`
to `5`; the `add(1)` variant raises the fatal arity `ValueError` with
nothing bound for `b` or `r`; and in general a user-defined function
called with a wrong argument count raises that error with the state
untouched (the check precedes argument evaluation and binding, so no
parameter is ever bound to null). -/
theorem claim_C4_add_program_and_arity :
    ((match interpret 50 addProgramAst with
      | (.ok (Value.num q), s) =>
        PyNum.beq q (PyNum.ofInt 5) &&
          (match envGet "r" s.frames with
           | some (Value.num w) => PyNum.beq w (PyNum.ofInt 5)
           | _ => false)
      | _ => false) = true) ∧
    ((match interpret 50 addWrongArityAst with
      | (.error e, s) =>
        (e == PyError.valueError "Function add expects 2 arguments but got 1") &&
          (envGet "b" s.frames).isNone && (envGet "r" s.frames).isNone
      | _ => false) = true) ∧
    (∀ (fuel : Nat) (name : String) (args : List Node) (s : InterpState)
        (fname : String) (params : List (String × String)) (rt : Option String)
        (body : List Node),
      envGet name s.frames = some (Value.func fname params rt body) →
      args.length ≠ params.length →
      visit (fuel+1) (Node.functionCall name args) s =
        (.error (PyError.valueError ("Function " ++ name ++ " expects " ++
          toString params.length ++ " arguments but got " ++ toString args.length)), s)) := by
  refine ⟨by decide, by decide, ?_⟩
  intro fuel name args s fname params rt body h hlen
  simp only [visit, Interp.bind_apply, getVar, h]
  simp [throwPy, hlen]

/-- Witness for C4's general arity conjunct: a one-parameter function
called with no arguments. -/
theorem claim_C4_add_program_and_arity_witness :
    envGet "f" [[("f", Value.func "f" [("a", "Int")] none [])]] =
      some (Value.func "f" [("a", "Int")] none []) ∧
    ([] : List Node).length ≠ [("a", "Int")].length ∧
    visit 1 (Node.functionCall "f" []) ⟨[[("f", Value.func "f" [("a", "Int")] none [])]], []⟩ =
      (.error (PyError.valueError "Function f expects 1 arguments but got 0"),
        ⟨[[("f", Value.func "f" [("a", "Int")] none [])]], []⟩) :=
  ⟨rfl, by decide,
    claim_C4_add_program_and_arity.2.2 0 "f" [] ⟨[[("f", Value.func "f" [("a", "Int")] none [])]], []⟩
      "f" [("a", "Int")] none [] rfl (by decide)⟩

/-! ### C6: match arms top-to-bottom, identifier catch-all -/

/-- C6: `match` evaluates its scrutinee once and tests arms
top-to-bottom: a leading literal arm compares by Python `==` and
either returns its result or falls through to the remaining arms; a
leading identifier arm returns its result unconditionally — so a
catch-all placed before a literal arm whose value equals the scrutinee
returns the catch-all's result (shown also on the concrete program
`match 5 \x7b other => "catchall", 5 => "lit" \x7d`). -/
theorem claim_C6_match_arm_order
    (fuel : Nat) (e : Node) (arms : List (Node × Node)) (v : Value)
    (s s1 : InterpState) (x : String) (r : Node) (n : Int) (rl rest : List (Node × Node))
    (hscrut : visit fuel e s = (.ok v, s1)) :
    (visit (fuel+1) (Node.matchExpr e arms) s = matchArms fuel v arms s1) ∧
    (∀ (r2 : Node), matchArms (fuel+2) v ((Node.number n, r2) :: rest) s1 =
      if pyEq v (Value.num (PyNum.ofInt n)) then visit (fuel+1) r2 s1
      else matchArms (fuel+1) v rest s1) ∧
    (matchArms (fuel+1) v ((Node.ident x, r) :: rl) s1 = visit fuel r s1) ∧
    ((match interpret 10 (Node.matchExpr (Node.number 5)
        [(Node.ident "other", Node.strLit "catchall"),
         (Node.number 5, Node.strLit "lit")]) with
      | (.ok (Value.str out), _) => out == "catchall"
      | _ => false) = true) := by
  refine ⟨?_, ?_, ?_, by decide⟩
  · simp only [visit, Interp.bind_apply, hscrut]
  · intro r2
    simp only [matchArms, Interp.bind_apply, visit_number]
    split <;> rfl
  · simp only [matchArms]

/-- Witness for C6 at scrutinee `5` with a catch-all-first arm list. -/
theorem claim_C6_match_arm_order_witness :
    visit 1 (Node.number 5) initState = (.ok (Value.num (PyNum.ofInt 5)), initState) ∧
    visit 2 (Node.matchExpr (Node.number 5)
        [(Node.ident "w", Node.strLit "c"), (Node.number 5, Node.strLit "l")]) initState =
      matchArms 1 (Value.num (PyNum.ofInt 5))
        [(Node.ident "w", Node.strLit "c"), (Node.number 5, Node.strLit "l")] initState :=
  ⟨rfl,
    (claim_C6_match_arm_order 1 (Node.number 5)
      [(Node.ident "w", Node.strLit "c"), (Node.number 5, Node.strLit "l")]
      (Value.num (PyNum.ofInt 5)) initState initState "w" (Node.strLit "c") 5 [] []
      rfl).1⟩

/-! ### C3: `return` stops the body only at the top level -/

/-- Counterexample to C3 as stated: in `fn f() \x7b if true \x7b
return 1; \x7d 2 \x7d`, a `return` IS encountered during body
execution (inside the `if`), so the claim requires the call to return
`1` with no later statement executing — but the interpreter's
`isinstance(stmt, ReturnStmt)` check sees only top-level statements,
the body continues, and `f()` returns `2`. -/
theorem claim_C3_counterexample_nested_return :
    (match interpret 50 nestedReturnAst with
      | (.ok (Value.num q), _) =>
        PyNum.beq q (PyNum.ofInt 2) && ¬ PyNum.beq q (PyNum.ofInt 1)
      | _ => false) = true := by decide

/-- C3 as amended: the body of a user-defined function runs
sequentially and returns the last statement's value, with an immediate
return exactly when a TOP-LEVEL statement of the body is itself a
`return` statement; a `return` nested inside a compound statement does
not terminate the body.  Formally: a top-level `ReturnStmt` makes the
body loop return that statement's evaluation at once (the remaining
statements are discarded on both the ok and the error path); any other
statement is evaluated and the loop continues with its value; the
exhausted loop returns the last value. -/
theorem claim_C3_return_semantics :
    (∀ (fuel : Nat) (stmt : Node) (rest : List Node) (res : Value) (s : InterpState),
      isReturnStmt stmt = true →
      runFuncBody (fuel+1) (stmt :: rest) res s = visit fuel stmt s) ∧
    (∀ (fuel : Nat) (stmt : Node) (rest : List Node) (res : Value) (s : InterpState),
      isReturnStmt stmt = false →
      runFuncBody (fuel+1) (stmt :: rest) res s =
        (match visit fuel stmt s with
         | (.ok r, s') => runFuncBody fuel rest r s'
         | (.error e, s') => (.error e, s'))) ∧
    (∀ (fuel : Nat) (res : Value) (s : InterpState),
      runFuncBody (fuel+1) [] res s = (.ok res, s)) := by
  refine ⟨?_, ?_, ?_⟩
  · intro fuel stmt rest res s h
    simp only [runFuncBody, Interp.bind_apply, h]
    rcases hv : visit fuel stmt s with ⟨r, s'⟩
    cases r <;> simp [Interp.pure_apply]
  · intro fuel stmt rest res s h
    simp only [runFuncBody, Interp.bind_apply, h]
    rcases hv : visit fuel stmt s with ⟨r, s'⟩
    cases r <;> simp
  · intro fuel res s
    rfl

/-- Witness for C3's amended semantics at a concrete body
`return 7; 9`. -/
theorem claim_C3_return_semantics_witness :
    isReturnStmt (Node.returnStmt (some (Node.number 7))) = true ∧
    runFuncBody 2 [Node.returnStmt (some (Node.number 7)), Node.number 9] Value.null initState =
      visit 1 (Node.returnStmt (some (Node.number 7))) initState :=
  ⟨rfl,
    claim_C3_return_semantics.1 1 (Node.returnStmt (some (Node.number 7)))
      [Node.number 9] Value.null initState rfl⟩

/-! ### C7: scoping — child environments pushed and restored

The environment-chain depth is preserved by every interpreter
operation, on the ok path and on the error path alike: each pushed
child frame is popped again by the `finally` restore.  The lemmas
below establish the invariant for each primitive and compose them
through the evaluator. -/

theorem envDefine_length (name : String) (v : Value) (fr : List Frame) (h : fr ≠ []) :
    (envDefine name v fr).length = fr.length := by
  cases fr with
  | nil => exact absurd rfl h
  | cons f rest => simp [envDefine]

theorem envAssign_length (name : String) (v : Value) :
    ∀ (fr fr' : List Frame), envAssign name v fr = some fr' → fr'.length = fr.length := by
  intro fr
  induction fr with
  | nil => intro fr' h; exact absurd h (by simp [envAssign])
  | cons f rest ih =>
    intro fr' h
    simp only [envAssign] at h
    split at h
    · cases h; simp
    · rcases hrec : envAssign name v rest with _ | rest'
      · rw [hrec] at h; cases h
      · rw [hrec] at h
        cases h
        simp [ih rest' hrec]

theorem frames_len_pure {α : Type} (a : α) :
    ∀ s : InterpState, 0 < s.frames.length →
      (((pure a : Interp α) s).2).frames.length = s.frames.length := by
  intro s _; rfl

theorem frames_len_throwPy {α : Type} (e : PyError) :
    ∀ s : InterpState, 0 < s.frames.length →
      (((throwPy e : Interp α) s).2).frames.length = s.frames.length := by
  intro s _; rfl

theorem frames_len_ofExceptPy {α : Type} (x : Except PyError α) :
    ∀ s : InterpState, 0 < s.frames.length →
      ((ofExceptPy x s).2).frames.length = s.frames.length := by
  intro s _; cases x <;> rfl

theorem frames_len_defineVar (name : String) (v : Value) :
    ∀ s : InterpState, 0 < s.frames.length →
      ((defineVar name v s).2).frames.length = s.frames.length := by
  intro s h
  simp only [defineVar]
  exact envDefine_length name v s.frames (by intro hnil; rw [hnil] at h; simp at h)

theorem frames_len_assignVar (name : String) (v : Value) :
    ∀ s : InterpState, 0 < s.frames.length →
      ((assignVar name v s).2).frames.length = s.frames.length := by
  intro s _
  simp only [assignVar]
  rcases h : envAssign name v s.frames with _ | fr'
  · rfl
  · simpa using envAssign_length name v s.frames fr' h

theorem frames_len_getVar (name : String) :
    ∀ s : InterpState, 0 < s.frames.length →
      ((getVar name s).2).frames.length = s.frames.length := by
  intro s _
  simp only [getVar]
  rcases envGet name s.frames with _ | v <;> rfl

theorem frames_len_emit (args : List Value) :
    ∀ s : InterpState, 0 < s.frames.length →
      ((emit args s).2).frames.length = s.frames.length := by
  intro s _; rfl

theorem frames_len_bind {α β : Type} (x : Interp α) (f : α → Interp β) (s : InterpState)
    (h0 : 0 < s.frames.length)
    (hx : ∀ s₀ : InterpState, 0 < s₀.frames.length →
      ((x s₀).2).frames.length = s₀.frames.length)
    (hf : ∀ (a : α) (s₀ : InterpState), 0 < s₀.frames.length →
      ((f a s₀).2).frames.length = s₀.frames.length) :
    (((x >>= f) s).2).frames.length = s.frames.length := by
  rw [Interp.bind_apply]
  rcases hxs : x s with ⟨r, s'⟩
  have h1 : s'.frames.length = s.frames.length := by
    have hh := hx s h0
    rw [hxs] at hh
    exact hh
  cases r with
  | ok a =>
    have h2 := hf a s' (by omega)
    show ((f a s').2).frames.length = s.frames.length
    omega
  | error e =>
    show (((Except.error e : Except PyError β), s').2).frames.length = s.frames.length
    simpa using h1

theorem frames_len_withChildEnv {α : Type} (body : Interp α)
    (hb : ∀ s₀ : InterpState, 0 < s₀.frames.length →
      ((body s₀).2).frames.length = s₀.frames.length) :
    ∀ s : InterpState, 0 < s.frames.length →
      ((withChildEnv body s).2).frames.length = s.frames.length := by
  intro s _
  simp only [withChildEnv]
  rcases h : body { s with frames := [] :: s.frames } with ⟨r, s2⟩
  have hh := hb { s with frames := [] :: s.frames } (by simp)
  rw [h] at hh
  simp at hh
  simp [List.length_tail, hh]

theorem frames_len_callBuiltin (b : Builtin) (args : List Value) :
    ∀ s : InterpState, 0 < s.frames.length →
      ((callBuiltin b args s).2).frames.length = s.frames.length := by
  intro s h
  cases b with
  | printlnFn =>
    exact frames_len_bind _ _ s h (frames_len_emit args) (fun a => frames_len_pure _)
  | sqrtFn =>
    cases args with
    | nil => rfl
    | cons a rest => cases rest <;> rfl

theorem frames_len_bindParams (ps : List ((String × String) × Value)) :
    ∀ s : InterpState, 0 < s.frames.length →
      ((bindParams ps s).2).frames.length = s.frames.length := by
  induction ps with
  | nil => intro s _; rfl
  | cons p rest ih =>
    intro s h
    exact frames_len_bind _ _ s h (frames_len_defineVar p.1.1 p.2) (fun _ => ih)

/-- Joint frames-length invariant of the seven mutually recursive
evaluator functions: every run, ok or error, leaves the environment
chain exactly as deep as it found it. -/
theorem interp_frames_len : ∀ fuel : Nat,
    (∀ (node : Node) (s : InterpState), 0 < s.frames.length →
      ((visit fuel node s).2).frames.length = s.frames.length) ∧
    (∀ (stmts : List Node) (res : Value) (s : InterpState), 0 < s.frames.length →
      ((runStmts fuel stmts res s).2).frames.length = s.frames.length) ∧
    (∀ (cond : Node) (body : List Node) (res : Value) (s : InterpState),
      0 < s.frames.length →
      ((runWhile fuel cond body res s).2).frames.length = s.frames.length) ∧
    (∀ (v : String) (body : List Node) (items : List Value) (res : Value)
      (s : InterpState), 0 < s.frames.length →
      ((runFor fuel v body items res s).2).frames.length = s.frames.length) ∧
    (∀ (body : List Node) (res : Value) (s : InterpState), 0 < s.frames.length →
      ((runFuncBody fuel body res s).2).frames.length = s.frames.length) ∧
    (∀ (args : List Node) (s : InterpState), 0 < s.frames.length →
      ((evalArgs fuel args s).2).frames.length = s.frames.length) ∧
    (∀ (v : Value) (arms : List (Node × Node)) (s : InterpState),
      0 < s.frames.length →
      ((matchArms fuel v arms s).2).frames.length = s.frames.length) := by
  intro fuel
  induction fuel with
  | zero => refine ⟨?_, ?_, ?_, ?_, ?_, ?_, ?_⟩ <;> intros <;> rfl
  | succ fuel ih =>
    obtain ⟨ihv, ihs, ihw, ihf, ihb, iha, ihm⟩ := ih
    refine ⟨?_, ?_, ?_, ?_, ?_, ?_, ?_⟩
    · intro node s h0
      cases node with
      | program statements =>
        exact ihs statements .null s h0
      | functionDef name params rt body =>
        exact frames_len_bind _ _ s h0 (frames_len_defineVar _ _)
          (fun _ => frames_len_pure _)
      | variableDecl m name ty value =>
        refine frames_len_bind _ _ s h0 (ihv value) ?_
        intro v s₀ h₀
        exact frames_len_bind _ _ s₀ h₀ (frames_len_defineVar _ _)
          (fun _ => frames_len_pure _)
      | constantDecl name value =>
        refine frames_len_bind _ _ s h0 (ihv value) ?_
        intro v s₀ h₀
        exact frames_len_bind _ _ s₀ h₀ (frames_len_defineVar _ _)
          (fun _ => frames_len_pure _)
      | assignment name value =>
        refine frames_len_bind _ _ s h0 (ihv value) ?_
        intro v s₀ h₀
        exact frames_len_bind _ _ s₀ h₀ (frames_len_assignVar _ _)
          (fun _ => frames_len_pure _)
      | binaryOp left operator right =>
        refine frames_len_bind _ _ s h0 (ihv left) ?_
        intro lv s₀ h₀
        exact frames_len_bind _ _ s₀ h₀ (ihv right)
          (fun rv => frames_len_ofExceptPy _)
      | unaryOp operator operand =>
        exact frames_len_bind _ _ s h0 (ihv operand)
          (fun v => frames_len_ofExceptPy _)
      | ifExpr condition then_branch else_branch =>
        refine frames_len_bind _ _ s h0 (ihv condition) ?_
        intro cv s₀ h₀
        dsimp only
        split
        · exact frames_len_withChildEnv _ (ihs then_branch .null) s₀ h₀
        · split
          · split
            · exact frames_len_pure _ s₀ h₀
            · exact frames_len_withChildEnv _ (ihs _ .null) s₀ h₀
          · exact frames_len_pure _ s₀ h₀
      | whileLoop condition body =>
        exact ihw condition body .null s h0
      | forLoop var_name iterable body =>
        refine frames_len_bind _ _ s h0 (ihv iterable) ?_
        intro it s₀ h₀
        dsimp only
        cases it
        case list elems => exact ihf var_name body elems .null s₀ h₀
        all_goals exact frames_len_throwPy _ s₀ h₀
      | returnStmt value =>
        cases value with
        | some v => exact ihv v s h0
        | none => exact frames_len_pure _ s h0
      | functionCall name args =>
        refine frames_len_bind _ _ s h0 (frames_len_getVar name) ?_
        intro f s₀ h₀
        dsimp only
        cases f
        case builtin b =>
          exact frames_len_bind _ _ s₀ h₀ (iha args)
            (fun argv => frames_len_callBuiltin b argv)
        case func fname params rt body =>
          dsimp only
          split
          · exact frames_len_throwPy _ s₀ h₀
          · refine frames_len_bind _ _ s₀ h₀ (iha args) ?_
            intro argv s₁ h₁
            exact frames_len_withChildEnv _
              (fun s₂ h₂ => frames_len_bind _ _ s₂ h₂ (frames_len_bindParams _)
                (fun _ => ihb body .null)) s₁ h₁
        all_goals exact frames_len_throwPy _ s₀ h₀
      | ident name => exact frames_len_getVar name s h0
      | number value => exact frames_len_pure _ s h0
      | strLit value => exact frames_len_pure _ s h0
      | boolean value => exact frames_len_pure _ s h0
      | matchExpr expr arms =>
        exact frames_len_bind _ _ s h0 (ihv expr) (fun v => ihm v arms)
    · intro stmts res s h0
      cases stmts with
      | nil => exact frames_len_pure _ s h0
      | cons stmt rest =>
        exact frames_len_bind _ _ s h0 (ihv stmt) (fun r => ihs rest r)
    · intro cond body res s h0
      refine frames_len_bind _ _ s h0 (ihv cond) ?_
      intro cv s₀ h₀
      dsimp only
      split
      · exact frames_len_bind _ _ s₀ h₀
          (frames_len_withChildEnv _ (ihs body res)) (fun r => ihw cond body r)
      · exact frames_len_pure _ s₀ h₀
    · intro v body items res s h0
      cases items with
      | nil => exact frames_len_pure _ s h0
      | cons item rest =>
        exact frames_len_bind _ _ s h0
          (frames_len_withChildEnv _
            (fun s₀ h₀ => frames_len_bind _ _ s₀ h₀ (frames_len_defineVar _ _)
              (fun _ => ihs body res)))
          (fun r => ihf v body rest r)
    · intro body res s h0
      cases body with
      | nil => exact frames_len_pure _ s h0
      | cons stmt rest =>
        refine frames_len_bind _ _ s h0 (ihv stmt) ?_
        intro r s₀ h₀
        dsimp only
        split
        · exact frames_len_pure _ s₀ h₀
        · exact ihb rest r s₀ h₀
    · intro args s h0
      cases args with
      | nil => exact frames_len_pure _ s h0
      | cons a rest =>
        refine frames_len_bind _ _ s h0 (ihv a) ?_
        intro v s₀ h₀
        exact frames_len_bind _ _ s₀ h₀ (iha rest) (fun vs => frames_len_pure _)
    · intro v arms s h0
      cases arms with
      | nil => exact frames_len_throwPy _ s h0
      | cons arm rest =>
        obtain ⟨pattern, result_expr⟩ := arm
        cases pattern
        case number n =>
          refine frames_len_bind _ _ s h0 (ihv _) ?_
          intro pv s₀ h₀
          dsimp only
          split
          · exact ihv result_expr s₀ h₀
          · exact ihm v rest s₀ h₀
        case strLit sv =>
          refine frames_len_bind _ _ s h0 (ihv _) ?_
          intro pv s₀ h₀
          dsimp only
          split
          · exact ihv result_expr s₀ h₀
          · exact ihm v rest s₀ h₀
        case boolean b =>
          refine frames_len_bind _ _ s h0 (ihv _) ?_
          intro pv s₀ h₀
          dsimp only
          split
          · exact ihv result_expr s₀ h₀
          · exact ihm v rest s₀ h₀
        case ident iname => exact ihv result_expr s h0
        all_goals exact ihm v rest s h0

/-- C7: evaluating an `if` body, `while` body, `for` body, or function
call pushes a fresh child environment and restores the prior
environment on every exit path — the frame chain's depth is invariant
across any evaluation (first conjunct), and `withChildEnv` pops the
pushed frame on the ok and the error outcome alike (second conjunct).
Concretely, `for x in xs { println(x); }` over `[1, 2, 3]` prints
1, 2, 3 in order (exactly three body executions) and leaves the
original two frames intact (third conjunct), and a variable defined
inside the body in one iteration is gone in the next: reading `y`
before re-defining it raises `NameError` on iteration two, with the
frames still restored (fourth conjunct). -/
theorem claim_C7_child_env_push_restore :
    (∀ (fuel : Nat) (node : Node) (s : InterpState), 0 < s.frames.length →
      ((visit fuel node s).2).frames.length = s.frames.length) ∧
    (∀ {α : Type} (body : Interp α) (s : InterpState) (r : Except PyError α)
      (s2 : InterpState),
      body { s with frames := [] :: s.frames } = (r, s2) →
      withChildEnv body s = (r, { s2 with frames := s2.frames.tail })) ∧
    ((match visit 20 forLoopTraceAst xsState with
      | (.ok Value.null, s') =>
        (match s'.output with
          | [[Value.num a], [Value.num b], [Value.num c]] =>
            PyNum.beq a (PyNum.ofInt 1) && PyNum.beq b (PyNum.ofInt 2) &&
            PyNum.beq c (PyNum.ofInt 3)
          | _ => false) &&
        (match s'.frames with
          | [[("xs", Value.list [Value.num x1, Value.num x2, Value.num x3])],
             [("println", Value.builtin Builtin.printlnFn)]] =>
            PyNum.beq x1 (PyNum.ofInt 1) && PyNum.beq x2 (PyNum.ofInt 2) &&
            PyNum.beq x3 (PyNum.ofInt 3)
          | _ => false)
      | _ => false) = true) ∧
    ((match visit 20 forLoopScopeAst xsState with
      | (.error (PyError.nameError m), s') =>
        (m == "Undefined variable: y") && (s'.frames.length == 2) && s'.output.isEmpty
      | _ => false) = true) := by
  refine ⟨fun fuel node s h0 => (interp_frames_len fuel).1 node s h0, ?_, by decide, by decide⟩
  intro α body s r s2 h
  simp only [withChildEnv, h]

/-- Witness for C7's two hypothesis-bearing conjuncts at a concrete
state and body. -/
theorem claim_C7_child_env_push_restore_witness :
    0 < xsState.frames.length ∧
    ((visit 2 (Node.ident "xs") xsState).2).frames.length = xsState.frames.length ∧
    withChildEnv (fun s => ((Except.ok Value.null : Except PyError Value), s)) xsState =
      (Except.ok Value.null, xsState) :=
  ⟨by decide,
   claim_C7_child_env_push_restore.1 2 (Node.ident "xs") xsState (by decide),
   claim_C7_child_env_push_restore.2.1
     (fun s => ((Except.ok Value.null : Except PyError Value), s)) xsState
     (Except.ok Value.null) { xsState with frames := [] :: xsState.frames } rfl⟩

/-- C1: verifying an unmutated proof succeeds — for every hash
function, source text and document, `verify_proof` on the proof just
produced by `TranslationProof.__init__` with the same source and
document returns true; and it fails closed: when the hash function is
collision-free, any document whose serialization hashes differently
(in particular any mutation that changes the serialized bytes) makes
`verify_proof` return false. -/
theorem claim_C1_verify_round_trip :
    (∀ (hash : String → String) (src : String) (doc : Json) (ver ts : String),
      TranslationProof.verify_proof hash
        (TranslationProof.make hash src doc ver ts) src doc = true) ∧
    (∀ (hash : String → String) (src : String) (doc doc' : Json) (ver ts : String),
      Function.Injective hash → doc'.dumps ≠ doc.dumps →
      TranslationProof.verify_proof hash
        (TranslationProof.make hash src doc ver ts) src doc' = false) := by
  constructor
  · intro hash src doc ver ts
    simp [TranslationProof.verify_proof, TranslationProof.make, generateProofHash]
  · intro hash src doc doc' ver ts hinj hne
    have hne2 : hash (hash src ++ hash doc'.dumps ++ ver ++ ts) ≠
        hash (hash src ++ hash doc.dumps ++ ver ++ ts) := by
      intro he
      have h1 := hinj he
      have h1d := congrArg String.data h1
      simp only [String.data_append, List.append_assoc] at h1d
      have h2 := List.append_cancel_left h1d
      have h3 := List.append_cancel_right h2
      exact hne (hinj (String.ext h3))
    have hb : (hash (hash src ++ hash doc'.dumps ++ ver ++ ts) ==
        hash (hash src ++ hash doc.dumps ++ ver ++ ts)) = false :=
      beq_eq_false_iff_ne.mpr hne2
    simp [TranslationProof.verify_proof, TranslationProof.make, generateProofHash, hb]

/-- Witness for C1 at the identity hash: the round trip verifies, and
swapping the document for one with a different serialization fails. -/
theorem claim_C1_verify_round_trip_witness :
    TranslationProof.verify_proof (fun s => s)
      (TranslationProof.make (fun s => s) "let x = 1;" (Json.str "a") "2.0-enhanced" "t")
      "let x = 1;" (Json.str "a") = true ∧
    Function.Injective (fun s : String => s) ∧
    (Json.str "b").dumps ≠ (Json.str "a").dumps ∧
    TranslationProof.verify_proof (fun s => s)
      (TranslationProof.make (fun s => s) "let x = 1;" (Json.str "a") "2.0-enhanced" "t")
      "let x = 1;" (Json.str "b") = false :=
  ⟨claim_C1_verify_round_trip.1 (fun s => s) "let x = 1;" (Json.str "a") "2.0-enhanced" "t",
   fun a b h => h,
   by simp only [Json.dumps]; decide,
   claim_C1_verify_round_trip.2 (fun s => s) "let x = 1;" (Json.str "a") (Json.str "b")
     "2.0-enhanced" "t" (fun a b h => h) (by simp only [Json.dumps]; decide)⟩

/-- C2 counterexample: the reverse translator does NOT recompute or
compare any hash.  With a hash function that can not reproduce the
stored hashes, `verify_proof` rejects the pair of source and document —
yet `translate_with_verification` on that same document and proof
reports a verification record with `verification_passed = true`. -/
theorem claim_C2_counterexample_stub_ignores_proof :
    TranslationProof.verify_proof (fun _ => "recomputed") mismatchedProof "src"
      (Json.obj []) = false ∧
    (BOCtoClarityTranslator.translateWithVerification (Json.obj [])
        (some mismatchedProof) "now").map (fun r => r.verification_result) =
      .ok (some { verification_passed := true
                  confidence_level := ⟨95, 100⟩
                  differences_detected := []
                  semantic_equivalence_confirmed := true }) := by
  exact ⟨by decide, rfl⟩

/-- C2 as amended: in the reverse direction no hash is recomputed and
nothing is compared.  `_verify_round_trip` returns the constant record
`verification_passed = true`, confidence `95/100`, no differences —
independent of the document and the proof — and
`translate_with_verification` stores exactly that constant record
whenever a proof is supplied (and `none` when no proof is supplied). -/
theorem claim_C2_reverse_verification_is_stub :
    (∀ (boc : Json) (p : TranslationProof),
      BOCtoClarityTranslator.verifyRoundTrip boc p =
        { verification_passed := true
          confidence_level := ⟨95, 100⟩
          differences_detected := []
          semantic_equivalence_confirmed := true }) ∧
    (∀ (boc : Json) (p : Option TranslationProof) (now : String)
      (r : BOCtoClarityTranslator.TranslateWithVerificationResult),
      BOCtoClarityTranslator.translateWithVerification boc p now = .ok r →
      r.verification_result = p.map (BOCtoClarityTranslator.verifyRoundTrip boc)) := by
  refine ⟨fun boc p => rfl, ?_⟩
  intro boc p now r h
  cases htc : BOCtoClarityTranslator.translateToClarity boc now with
  | ok code =>
    have he : BOCtoClarityTranslator.translateWithVerification boc p now =
        .ok { clarity_code := code
              verification_result := p.map (BOCtoClarityTranslator.verifyRoundTrip boc)
              translator_version := BOCtoClarityTranslator.version
              timestamp := now } := by
      simp only [BOCtoClarityTranslator.translateWithVerification, htc]
      rfl
    rw [he] at h
    cases h
    rfl
  | error e =>
    have he : BOCtoClarityTranslator.translateWithVerification boc p now = .error e := by
      simp only [BOCtoClarityTranslator.translateWithVerification, htc]
      rfl
    rw [he] at h
    cases h

/-- Witness for C2's amended theorem at the empty document and the
mismatched proof. -/
theorem claim_C2_reverse_verification_is_stub_witness :
    ({ clarity_code := "// Auto-generated from BOC representation (v2.0-enhanced)\n// Translated at: now\n// Original source: unknown\n"
       verification_result := some { verification_passed := true
                                     confidence_level := ⟨95, 100⟩
                                     differences_detected := []
                                     semantic_equivalence_confirmed := true }
       translator_version := "2.0-enhanced"
       timestamp := "now" } :
      BOCtoClarityTranslator.TranslateWithVerificationResult).verification_result =
      (some mismatchedProof).map (BOCtoClarityTranslator.verifyRoundTrip (Json.obj [])) :=
  claim_C2_reverse_verification_is_stub.2 (Json.obj []) (some mismatchedProof) "now" _ rfl

/-- C5 counterexample: lexing `"a\nb"` (backslash-escape of `n` inside
a string literal).  The basic lexer of `clarity_parser.py` DROPS the
backslash and keeps only the following character — the lexeme is `anb`,
not the claimed `a\nb`.  The optimized lexer keeps both characters. -/
theorem claim_C5_counterexample_basic_drops_escape_char :
    ((match BasicLexer.tokenizeText 10 ['"', 'a', '\\', 'n', 'b', '"'] with
      | .ok [⟨TokType.STRING, v, _, _⟩, ⟨TokType.EOF, _, _, _⟩] =>
        v == "anb" && !(v == "a\\nb")
      | _ => false) = true) ∧
    ((match OptLexer.tokenizeText 10 ['"', 'a', '\\', 'n', 'b', '"'] with
      | .ok [⟨TokType.STRING, v, _, _⟩, ⟨TokType.EOF, _, _, _⟩] =>
        v == "a\\nb"
      | _ => false) = true) := by
  exact ⟨by decide, by decide⟩

theorem removeEscapes_cons_backslash (c2 : Char) (rest : List Char) :
    removeEscapes ('\\' :: c2 :: rest) = c2 :: removeEscapes rest := by
  simp [removeEscapes]

theorem removeEscapes_cons (c : Char) (rest : List Char) (h : (c == '\\') = false) :
    removeEscapes (c :: rest) = c :: removeEscapes rest := by
  rw [removeEscapes.eq_def]
  simp [h]

theorem readStringBodyAux_removeEscapes : ∀ (fuel : Nat) (q : Char) (l : LexState),
    BasicLexer.readStringBodyAux fuel q l =
      (removeEscapes (OptLexer.readStringBodyAux fuel q l).1,
       (OptLexer.readStringBodyAux fuel q l).2) := by
  intro fuel
  induction fuel with
  | zero => intro q l; rfl
  | succ fuel ih =>
    intro q l
    simp only [BasicLexer.readStringBodyAux, OptLexer.readStringBodyAux]
    split
    · rfl
    · rename_i c hcc
      split
      · rfl
      · split
        · split
          · rfl
          · rename_i c2 hc2
            rw [ih q (advance (advance l))]
            rw [removeEscapes_cons_backslash]
        · rename_i hnb
          have hb : (c == '\\') = false := by simpa using hnb
          rw [ih q (advance l)]
          rw [removeEscapes_cons c _ hb]

theorem readString_removeEscapes (l : LexState) :
    BasicLexer.readString l =
      (removeEscapes (OptLexer.readString l).1, (OptLexer.readString l).2) := by
  simp only [BasicLexer.readString, OptLexer.readString]
  split
  · rfl
  · rename_i q hq
    have hbody : BasicLexer.readStringBody q (advance l) =
        (removeEscapes (OptLexer.readStringBody q (advance l)).1,
         (OptLexer.readStringBody q (advance l)).2) :=
      readStringBodyAux_removeEscapes _ q (advance l)
    rw [hbody]

/-- C5 as amended: on a backslash inside a string body (the delimiter
not being a backslash), the basic lexer appends ONLY the character
following the escape — the backslash itself is dropped — while the
optimized lexer appends the backslash AND the following character;
neither translates the pair into a control character (the appended
characters are the scanned ones, unchanged).  In full (third
conjunct): on EVERY input state, `Lexer.read_string` returns exactly
`OptimizedLexer.read_string`'s lexeme with each escape backslash
removed, and the identical resulting lexer state. -/
theorem claim_C5_escape_handling :
    (∀ (fuel : Nat) (q : Char) (l : LexState) (c2 : Char),
      ('\\' == q) = false → currentChar l = some '\\' →
      currentChar (advance l) = some c2 →
      BasicLexer.readStringBodyAux (fuel+1) q l =
        (c2 :: (BasicLexer.readStringBodyAux fuel q (advance (advance l))).1,
         (BasicLexer.readStringBodyAux fuel q (advance (advance l))).2)) ∧
    (∀ (fuel : Nat) (q : Char) (l : LexState) (c2 : Char),
      ('\\' == q) = false → currentChar l = some '\\' →
      currentChar (advance l) = some c2 →
      OptLexer.readStringBodyAux (fuel+1) q l =
        ('\\' :: c2 :: (OptLexer.readStringBodyAux fuel q (advance (advance l))).1,
         (OptLexer.readStringBodyAux fuel q (advance (advance l))).2)) ∧
    (∀ (l : LexState),
      BasicLexer.readString l =
        (removeEscapes (OptLexer.readString l).1, (OptLexer.readString l).2)) := by
  refine ⟨?_, ?_, readString_removeEscapes⟩
  · intro fuel q l c2 hq hl hl2
    rcases he : BasicLexer.readStringBodyAux fuel q (advance (advance l)) with ⟨cs, l2⟩
    simp only [BasicLexer.readStringBodyAux, hl, hl2, hq, he]
    simp
  · intro fuel q l c2 hq hl hl2
    rcases he : OptLexer.readStringBodyAux fuel q (advance (advance l)) with ⟨cs, l2⟩
    simp only [OptLexer.readStringBodyAux, hl, hl2, hq, he]
    simp

/-- Witness for C5's amended equations on the body `a\nb` at the
backslash, and for the whole-literal relation on `"a\nb"`. -/
theorem claim_C5_escape_handling_witness :
    BasicLexer.readStringBodyAux 6 '"'
        { text := ['a', '\\', 'n'], pos := 1, line := 1, column := 1 } =
      ('n' :: (BasicLexer.readStringBodyAux 5 '"'
          (advance (advance { text := ['a', '\\', 'n'], pos := 1, line := 1, column := 1 }))).1,
       (BasicLexer.readStringBodyAux 5 '"'
          (advance (advance { text := ['a', '\\', 'n'], pos := 1, line := 1, column := 1 }))).2) ∧
    OptLexer.readStringBodyAux 6 '"'
        { text := ['a', '\\', 'n'], pos := 1, line := 1, column := 1 } =
      ('\\' :: 'n' :: (OptLexer.readStringBodyAux 5 '"'
          (advance (advance { text := ['a', '\\', 'n'], pos := 1, line := 1, column := 1 }))).1,
       (OptLexer.readStringBodyAux 5 '"'
          (advance (advance { text := ['a', '\\', 'n'], pos := 1, line := 1, column := 1 }))).2) ∧
    BasicLexer.readString (LexState.init ['"', 'a', '\\', 'n', 'b', '"']) =
      (removeEscapes (OptLexer.readString (LexState.init ['"', 'a', '\\', 'n', 'b', '"'])).1,
       (OptLexer.readString (LexState.init ['"', 'a', '\\', 'n', 'b', '"'])).2) :=
  ⟨claim_C5_escape_handling.1 5 '"'
      { text := ['a', '\\', 'n'], pos := 1, line := 1, column := 1 } 'n' (by decide) rfl rfl,
   claim_C5_escape_handling.2.1 5 '"'
      { text := ['a', '\\', 'n'], pos := 1, line := 1, column := 1 } 'n' (by decide) rfl rfl,
   claim_C5_escape_handling.2.2 (LexState.init ['"', 'a', '\\', 'n', 'b', '"'])⟩

/-! ### C9/C10 groundwork: lexer state facts

`advance` never touches the text and always moves `pos` one forward;
each scanner's consumption and lexeme depend only on `text` and `pos`,
never on the `line`/`column` counters. -/

theorem advance_text (l : LexState) : (advance l).text = l.text := by
  simp only [advance]
  split <;> rfl

theorem advance_pos (l : LexState) : (advance l).pos = l.pos + 1 := by
  simp only [advance]
  split <;> rfl

theorem currentChar_congr {l₁ l₂ : LexState} (ht : l₁.text = l₂.text)
    (hp : l₁.pos = l₂.pos) : currentChar l₁ = currentChar l₂ := by
  simp only [currentChar, ht, hp]

theorem peek_congr {l₁ l₂ : LexState} (ht : l₁.text = l₂.text)
    (hp : l₁.pos = l₂.pos) : peek l₁ = peek l₂ := by
  simp only [peek, ht, hp]

theorem advance_congr {l₁ l₂ : LexState} (ht : l₁.text = l₂.text)
    (hp : l₁.pos = l₂.pos) :
    (advance l₁).text = (advance l₂).text ∧ (advance l₁).pos = (advance l₂).pos := by
  constructor
  · rw [advance_text, advance_text, ht]
  · rw [advance_pos, advance_pos, hp]

theorem skipWhitespaceAux_text :
    ∀ (fuel : Nat) (l : LexState), (BasicLexer.skipWhitespaceAux fuel l).text = l.text := by
  intro fuel
  induction fuel with
  | zero => intro l; rfl
  | succ fuel ih =>
    intro l
    simp only [BasicLexer.skipWhitespaceAux]
    split
    · split
      · exact (ih (advance l)).trans (advance_text l)
      · rfl
    · rfl

theorem pi_skipWhitespaceAux :
    ∀ (fuel : Nat) (l₁ l₂ : LexState), l₁.text = l₂.text → l₁.pos = l₂.pos →
      (BasicLexer.skipWhitespaceAux fuel l₁).pos = (BasicLexer.skipWhitespaceAux fuel l₂).pos := by
  intro fuel
  induction fuel with
  | zero => intro l₁ l₂ _ hp; exact hp
  | succ fuel ih =>
    intro l₁ l₂ ht hp
    have hc : currentChar l₂ = currentChar l₁ := currentChar_congr ht.symm hp.symm
    simp only [BasicLexer.skipWhitespaceAux, hc]
    split
    · split
      · exact ih (advance l₁) (advance l₂) (advance_congr ht hp).1 (advance_congr ht hp).2
      · exact hp
    · exact hp

theorem skipCommentAux_text :
    ∀ (fuel : Nat) (l : LexState), (skipCommentAux fuel l).text = l.text := by
  intro fuel
  induction fuel with
  | zero => intro l; rfl
  | succ fuel ih =>
    intro l
    simp only [skipCommentAux]
    split
    · split
      · rfl
      · exact (ih (advance l)).trans (advance_text l)
    · rfl

theorem pi_skipCommentAux :
    ∀ (fuel : Nat) (l₁ l₂ : LexState), l₁.text = l₂.text → l₁.pos = l₂.pos →
      (skipCommentAux fuel l₁).pos = (skipCommentAux fuel l₂).pos := by
  intro fuel
  induction fuel with
  | zero => intro l₁ l₂ _ hp; exact hp
  | succ fuel ih =>
    intro l₁ l₂ ht hp
    have hc : currentChar l₂ = currentChar l₁ := currentChar_congr ht.symm hp.symm
    simp only [skipCommentAux, hc]
    split
    · split
      · exact hp
      · exact ih (advance l₁) (advance l₂) (advance_congr ht hp).1 (advance_congr ht hp).2
    · exact hp

theorem readNumberAux_text :
    ∀ (fuel : Nat) (l : LexState), ((BasicLexer.readNumberAux fuel l).2).text = l.text := by
  intro fuel
  induction fuel with
  | zero => intro l; rfl
  | succ fuel ih =>
    intro l
    simp only [BasicLexer.readNumberAux]
    split
    · split
      · rcases hr : BasicLexer.readNumberAux fuel (advance l) with ⟨ds, l'⟩
        have hih := ih (advance l)
        rw [hr] at hih
        simpa [advance_text] using hih
      · rfl
    · rfl

theorem pi_readNumberAux :
    ∀ (fuel : Nat) (l₁ l₂ : LexState), l₁.text = l₂.text → l₁.pos = l₂.pos →
      (BasicLexer.readNumberAux fuel l₁).1 = (BasicLexer.readNumberAux fuel l₂).1 ∧
      ((BasicLexer.readNumberAux fuel l₁).2).pos = ((BasicLexer.readNumberAux fuel l₂).2).pos := by
  intro fuel
  induction fuel with
  | zero => intro l₁ l₂ _ hp; exact ⟨rfl, hp⟩
  | succ fuel ih =>
    intro l₁ l₂ ht hp
    have hc : currentChar l₂ = currentChar l₁ := currentChar_congr ht.symm hp.symm
    simp only [BasicLexer.readNumberAux, hc]
    split
    · split
      · rcases hr1 : BasicLexer.readNumberAux fuel (advance l₁) with ⟨ds₁, l₁'⟩
        rcases hr2 : BasicLexer.readNumberAux fuel (advance l₂) with ⟨ds₂, l₂'⟩
        have hrec := ih (advance l₁) (advance l₂) (advance_congr ht hp).1 (advance_congr ht hp).2
        rw [hr1, hr2] at hrec
        exact ⟨by simpa using hrec.1, hrec.2⟩
      · exact ⟨rfl, hp⟩
    · exact ⟨rfl, hp⟩

theorem readIdentifierAux_text :
    ∀ (fuel : Nat) (l : LexState), ((BasicLexer.readIdentifierAux fuel l).2).text = l.text := by
  intro fuel
  induction fuel with
  | zero => intro l; rfl
  | succ fuel ih =>
    intro l
    simp only [BasicLexer.readIdentifierAux]
    split
    · split
      · rcases hr : BasicLexer.readIdentifierAux fuel (advance l) with ⟨ds, l'⟩
        have hih := ih (advance l)
        rw [hr] at hih
        simpa [advance_text] using hih
      · rfl
    · rfl

theorem pi_readIdentifierAux :
    ∀ (fuel : Nat) (l₁ l₂ : LexState), l₁.text = l₂.text → l₁.pos = l₂.pos →
      (BasicLexer.readIdentifierAux fuel l₁).1 = (BasicLexer.readIdentifierAux fuel l₂).1 ∧
      ((BasicLexer.readIdentifierAux fuel l₁).2).pos = ((BasicLexer.readIdentifierAux fuel l₂).2).pos := by
  intro fuel
  induction fuel with
  | zero => intro l₁ l₂ _ hp; exact ⟨rfl, hp⟩
  | succ fuel ih =>
    intro l₁ l₂ ht hp
    have hc : currentChar l₂ = currentChar l₁ := currentChar_congr ht.symm hp.symm
    simp only [BasicLexer.readIdentifierAux, hc]
    split
    · split
      · rcases hr1 : BasicLexer.readIdentifierAux fuel (advance l₁) with ⟨ds₁, l₁'⟩
        rcases hr2 : BasicLexer.readIdentifierAux fuel (advance l₂) with ⟨ds₂, l₂'⟩
        have hrec := ih (advance l₁) (advance l₂) (advance_congr ht hp).1 (advance_congr ht hp).2
        rw [hr1, hr2] at hrec
        exact ⟨by simpa using hrec.1, hrec.2⟩
      · exact ⟨rfl, hp⟩
    · exact ⟨rfl, hp⟩

theorem readStringBodyAux_text :
    ∀ (fuel : Nat) (q : Char) (l : LexState),
      ((BasicLexer.readStringBodyAux fuel q l).2).text = l.text := by
  intro fuel
  induction fuel with
  | zero => intro q l; rfl
  | succ fuel ih =>
    intro q l
    simp only [BasicLexer.readStringBodyAux]
    split
    · rfl
    · split
      · rfl
      · split
        · split
          · exact advance_text l
          · rcases hr : BasicLexer.readStringBodyAux fuel q (advance (advance l)) with ⟨cs, l2⟩
            have hih := ih q (advance (advance l))
            rw [hr] at hih
            simpa [advance_text] using hih
        · rcases hr : BasicLexer.readStringBodyAux fuel q (advance l) with ⟨cs, l2⟩
          have hih := ih q (advance l)
          rw [hr] at hih
          simpa [advance_text] using hih

theorem pi_readStringBodyAux :
    ∀ (fuel : Nat) (q : Char) (l₁ l₂ : LexState), l₁.text = l₂.text → l₁.pos = l₂.pos →
      (BasicLexer.readStringBodyAux fuel q l₁).1 = (BasicLexer.readStringBodyAux fuel q l₂).1 ∧
      ((BasicLexer.readStringBodyAux fuel q l₁).2).pos = ((BasicLexer.readStringBodyAux fuel q l₂).2).pos := by
  intro fuel
  induction fuel with
  | zero => intro q l₁ l₂ _ hp; exact ⟨rfl, hp⟩
  | succ fuel ih =>
    intro q l₁ l₂ ht hp
    have hc : currentChar l₂ = currentChar l₁ := currentChar_congr ht.symm hp.symm
    have hc2 : currentChar (advance l₂) = currentChar (advance l₁) :=
      currentChar_congr (advance_congr ht hp).1.symm (advance_congr ht hp).2.symm
    simp only [BasicLexer.readStringBodyAux, hc, hc2]
    split
    · exact ⟨rfl, hp⟩
    · split
      · exact ⟨rfl, hp⟩
      · split
        · split
          · exact ⟨rfl, (advance_congr ht hp).2⟩
          · rcases hr1 : BasicLexer.readStringBodyAux fuel q (advance (advance l₁)) with ⟨cs₁, l₁'⟩
            rcases hr2 : BasicLexer.readStringBodyAux fuel q (advance (advance l₂)) with ⟨cs₂, l₂'⟩
            have hrec := ih q (advance (advance l₁)) (advance (advance l₂))
              (advance_congr (advance_congr ht hp).1 (advance_congr ht hp).2).1
              (advance_congr (advance_congr ht hp).1 (advance_congr ht hp).2).2
            rw [hr1, hr2] at hrec
            exact ⟨by simpa using hrec.1, hrec.2⟩
        · rcases hr1 : BasicLexer.readStringBodyAux fuel q (advance l₁) with ⟨cs₁, l₁'⟩
          rcases hr2 : BasicLexer.readStringBodyAux fuel q (advance l₂) with ⟨cs₂, l₂'⟩
          have hrec := ih q (advance l₁) (advance l₂) (advance_congr ht hp).1 (advance_congr ht hp).2
          rw [hr1, hr2] at hrec
          exact ⟨by simpa using hrec.1, hrec.2⟩

theorem readNumber_text (l : LexState) : ((BasicLexer.readNumber l).2).text = l.text :=
  readNumberAux_text _ l

theorem pi_readNumber (l₁ l₂ : LexState) (ht : l₁.text = l₂.text) (hp : l₁.pos = l₂.pos) :
    (BasicLexer.readNumber l₁).1 = (BasicLexer.readNumber l₂).1 ∧
    ((BasicLexer.readNumber l₁).2).pos = ((BasicLexer.readNumber l₂).2).pos := by
  have hf : l₂.text.length - l₂.pos + 1 = l₁.text.length - l₁.pos + 1 := by rw [ht, hp]
  simp only [BasicLexer.readNumber, hf]
  exact pi_readNumberAux _ l₁ l₂ ht hp

theorem readIdentifier_text (l : LexState) : ((BasicLexer.readIdentifier l).2).text = l.text :=
  readIdentifierAux_text _ l

theorem pi_readIdentifier (l₁ l₂ : LexState) (ht : l₁.text = l₂.text) (hp : l₁.pos = l₂.pos) :
    (BasicLexer.readIdentifier l₁).1 = (BasicLexer.readIdentifier l₂).1 ∧
    ((BasicLexer.readIdentifier l₁).2).pos = ((BasicLexer.readIdentifier l₂).2).pos := by
  have hf : l₂.text.length - l₂.pos + 1 = l₁.text.length - l₁.pos + 1 := by rw [ht, hp]
  simp only [BasicLexer.readIdentifier, hf]
  exact pi_readIdentifierAux _ l₁ l₂ ht hp

theorem readStringBody_text (q : Char) (l : LexState) :
    ((BasicLexer.readStringBody q l).2).text = l.text :=
  readStringBodyAux_text _ q l

theorem pi_readStringBody (q : Char) (l₁ l₂ : LexState) (ht : l₁.text = l₂.text)
    (hp : l₁.pos = l₂.pos) :
    (BasicLexer.readStringBody q l₁).1 = (BasicLexer.readStringBody q l₂).1 ∧
    ((BasicLexer.readStringBody q l₁).2).pos = ((BasicLexer.readStringBody q l₂).2).pos := by
  have hf : l₂.text.length - l₂.pos + 1 = l₁.text.length - l₁.pos + 1 := by rw [ht, hp]
  simp only [BasicLexer.readStringBody, hf]
  exact pi_readStringBodyAux _ q l₁ l₂ ht hp

theorem readString_text (l : LexState) : ((BasicLexer.readString l).2).text = l.text := by
  simp only [BasicLexer.readString]
  split
  · rfl
  · rename_i q hq
    rcases hr : BasicLexer.readStringBody q (advance l) with ⟨cs, l2⟩
    simp only [hr]
    have h2 : l2.text = (advance l).text := by
      have hb := readStringBody_text q (advance l)
      rw [hr] at hb
      exact hb
    split
    · exact (advance_text l2).trans (h2.trans (advance_text l))
    · exact h2.trans (advance_text l)

theorem pi_readString (l₁ l₂ : LexState) (ht : l₁.text = l₂.text) (hp : l₁.pos = l₂.pos) :
    (BasicLexer.readString l₁).1 = (BasicLexer.readString l₂).1 ∧
    ((BasicLexer.readString l₁).2).pos = ((BasicLexer.readString l₂).2).pos := by
  have hc : currentChar l₂ = currentChar l₁ := currentChar_congr ht.symm hp.symm
  simp only [BasicLexer.readString, hc]
  split
  · exact ⟨rfl, hp⟩
  · rename_i q hq
    rcases hr1 : BasicLexer.readStringBody q (advance l₁) with ⟨cs₁, l₁'⟩
    rcases hr2 : BasicLexer.readStringBody q (advance l₂) with ⟨cs₂, l₂'⟩
    simp only [hr1, hr2]
    have hrec := pi_readStringBody q (advance l₁) (advance l₂)
      (advance_congr ht hp).1 (advance_congr ht hp).2
    rw [hr1, hr2] at hrec
    have hcs : cs₁ = cs₂ := hrec.1
    have hpos : l₁'.pos = l₂'.pos := hrec.2
    have ht1 : l₁'.text = (advance l₁).text := by
      have hb := readStringBody_text q (advance l₁)
      rw [hr1] at hb
      exact hb
    have ht2 : l₂'.text = (advance l₂).text := by
      have hb := readStringBody_text q (advance l₂)
      rw [hr2] at hb
      exact hb
    have htt : l₁'.text = l₂'.text := by
      rw [ht1, ht2, (advance_congr ht hp).1]
    have hcc : currentChar l₂' = currentChar l₁' := currentChar_congr htt.symm hpos.symm
    simp only [hcc]
    refine ⟨hcs, ?_⟩
    split
    · rw [advance_pos, advance_pos, hpos]
    · exact hpos

theorem skipWhitespace_text (l : LexState) : (BasicLexer.skipWhitespace l).text = l.text :=
  skipWhitespaceAux_text _ l

theorem pi_skipWhitespace (l₁ l₂ : LexState) (ht : l₁.text = l₂.text) (hp : l₁.pos = l₂.pos) :
    (BasicLexer.skipWhitespace l₁).pos = (BasicLexer.skipWhitespace l₂).pos := by
  have hf : l₂.text.length - l₂.pos + 1 = l₁.text.length - l₁.pos + 1 := by rw [ht, hp]
  simp only [BasicLexer.skipWhitespace, hf]
  exact pi_skipWhitespaceAux _ l₁ l₂ ht hp

theorem skipComment_text (l : LexState) : (skipComment l).text = l.text :=
  skipCommentAux_text _ l

theorem pi_skipComment (l₁ l₂ : LexState) (ht : l₁.text = l₂.text) (hp : l₁.pos = l₂.pos) :
    (skipComment l₁).pos = (skipComment l₂).pos := by
  have hf : l₂.text.length - l₂.pos + 1 = l₁.text.length - l₁.pos + 1 := by rw [ht, hp]
  simp only [skipComment, hf]
  exact pi_skipCommentAux _ l₁ l₂ ht hp

theorem getNextToken_text :
    ∀ (fuel : Nat) (l : LexState) (t : Token) (l' : LexState),
      BasicLexer.getNextToken fuel l = .ok (t, l') → l'.text = l.text := by
  intro fuel
  induction fuel with
  | zero => intro l t l' h; exact nomatch h
  | succ fuel ih =>
    intro l t l' h
    simp only [BasicLexer.getNextToken] at h
    split at h
    · cases h
      rfl
    · rename_i c hceq
      cases hs0 : pyIsSpace c with
      | true =>
        rw [if_pos hs0] at h
        have h2 := ih _ _ _ h
        rw [h2]
        exact skipWhitespace_text l
      | false =>
        rw [if_neg (by simp [hs0])] at h
        cases hs1 : (c == '/' && peek l == some '/') with
        | true =>
          rw [if_pos hs1] at h
          have h2 := ih _ _ _ h
          rw [h2, skipComment_text, advance_text, advance_text]
        | false =>
          rw [if_neg (by simp [hs1])] at h
          cases hs2 : c.isDigit with
          | true =>
            rw [if_pos hs2] at h
            cases h
            exact readNumber_text l
          | false =>
            rw [if_neg (by simp [hs2])] at h
            cases hs3 : (c.isAlpha || c == '_') with
            | true =>
              rw [if_pos hs3] at h
              cases h
              exact readIdentifier_text l
            | false =>
              rw [if_neg (by simp [hs3])] at h
              cases hs4 : (c == '"' || c == '\'') with
              | true =>
                rw [if_pos hs4] at h
                cases h
                exact readString_text l
              | false =>
                rw [if_neg (by simp [hs4])] at h
                cases hs5 : (c == '=' && peek l == some '>') with
                | true =>
                  rw [if_pos hs5] at h
                  cases h
                  rw [advance_text, advance_text]
                | false =>
                  rw [if_neg (by simp [hs5])] at h
                  cases hs6 : (c == '-' && peek l == some '>') with
                  | true =>
                    rw [if_pos hs6] at h
                    cases h
                    rw [advance_text, advance_text]
                  | false =>
                    rw [if_neg (by simp [hs6])] at h
                    cases hs7 : (c == '=' && peek l == some '=') with
                    | true =>
                      rw [if_pos hs7] at h
                      cases h
                      rw [advance_text, advance_text]
                    | false =>
                      rw [if_neg (by simp [hs7])] at h
                      cases hs8 : (c == '!' && peek l == some '=') with
                      | true =>
                        rw [if_pos hs8] at h
                        cases h
                        rw [advance_text, advance_text]
                      | false =>
                        rw [if_neg (by simp [hs8])] at h
                        cases hs9 : (c == '<' && peek l == some '=') with
                        | true =>
                          rw [if_pos hs9] at h
                          cases h
                          rw [advance_text, advance_text]
                        | false =>
                          rw [if_neg (by simp [hs9])] at h
                          cases hs10 : (c == '>' && peek l == some '=') with
                          | true =>
                            rw [if_pos hs10] at h
                            cases h
                            rw [advance_text, advance_text]
                          | false =>
                            rw [if_neg (by simp [hs10])] at h
                            cases hs11 : (c == '&' && peek l == some '&') with
                            | true =>
                              rw [if_pos hs11] at h
                              cases h
                              rw [advance_text, advance_text]
                            | false =>
                              rw [if_neg (by simp [hs11])] at h
                              cases hs12 : (c == '|' && peek l == some '|') with
                              | true =>
                                rw [if_pos hs12] at h
                                cases h
                                rw [advance_text, advance_text]
                              | false =>
                                rw [if_neg (by simp [hs12])] at h
                                cases hsc : singleCharToken c with
                                | some tt =>
                                  rw [hsc] at h
                                  cases h
                                  exact advance_text l
                                | none =>
                                  rw [hsc] at h
                                  exact nomatch h

theorem pi_getNextToken :
    ∀ (fuel : Nat) (l₁ l₂ : LexState), l₁.text = l₂.text → l₁.pos = l₂.pos →
      stepShape (BasicLexer.getNextToken fuel l₁) = stepShape (BasicLexer.getNextToken fuel l₂) := by
  intro fuel
  induction fuel with
  | zero => intro l₁ l₂ _ _; rfl
  | succ fuel ih =>
    intro l₁ l₂ ht hp
    have hc : currentChar l₂ = currentChar l₁ := currentChar_congr ht.symm hp.symm
    have hpk : peek l₂ = peek l₁ := peek_congr ht.symm hp.symm
    simp only [BasicLexer.getNextToken, hc, hpk]
    split
    · simp [stepShape, hp]
    · rename_i c hceq
      cases hs0 : pyIsSpace c with
      | true =>
        rw [if_pos rfl, if_pos rfl]
        exact ih _ _ (by rw [skipWhitespace_text, skipWhitespace_text, ht]) (pi_skipWhitespace l₁ l₂ ht hp)
      | false =>
        rw [if_neg Bool.false_ne_true, if_neg Bool.false_ne_true]
        cases hs1 : (c == '/' && peek l₁ == some '/') with
        | true =>
          rw [if_pos rfl, if_pos rfl]
          refine ih _ _ ?_ ?_
          · rw [skipComment_text, skipComment_text, advance_text, advance_text, advance_text, advance_text]
            exact ht
          · exact pi_skipComment _ _ (advance_congr (advance_congr ht hp).1 (advance_congr ht hp).2).1 (advance_congr (advance_congr ht hp).1 (advance_congr ht hp).2).2
        | false =>
          rw [if_neg Bool.false_ne_true, if_neg Bool.false_ne_true]
          cases hs2 : c.isDigit with
          | true =>
            rw [if_pos rfl, if_pos rfl]
            have hrec := pi_readNumber l₁ l₂ ht hp
            simp [stepShape, hrec.1, hrec.2]
          | false =>
            rw [if_neg Bool.false_ne_true, if_neg Bool.false_ne_true]
            cases hs3 : (c.isAlpha || c == '_') with
            | true =>
              rw [if_pos rfl, if_pos rfl]
              have hrec := pi_readIdentifier l₁ l₂ ht hp
              simp [stepShape, hrec.1, hrec.2]
            | false =>
              rw [if_neg Bool.false_ne_true, if_neg Bool.false_ne_true]
              cases hs4 : (c == '"' || c == '\'') with
              | true =>
                rw [if_pos rfl, if_pos rfl]
                have hrec := pi_readString l₁ l₂ ht hp
                simp [stepShape, hrec.1, hrec.2]
              | false =>
                rw [if_neg Bool.false_ne_true, if_neg Bool.false_ne_true]
                cases hs5 : (c == '=' && peek l₁ == some '>') with
                | true =>
                  rw [if_pos rfl, if_pos rfl]
                  simp [stepShape, advance_pos, hp]
                | false =>
                  rw [if_neg Bool.false_ne_true, if_neg Bool.false_ne_true]
                  cases hs6 : (c == '-' && peek l₁ == some '>') with
                  | true =>
                    rw [if_pos rfl, if_pos rfl]
                    simp [stepShape, advance_pos, hp]
                  | false =>
                    rw [if_neg Bool.false_ne_true, if_neg Bool.false_ne_true]
                    cases hs7 : (c == '=' && peek l₁ == some '=') with
                    | true =>
                      rw [if_pos rfl, if_pos rfl]
                      simp [stepShape, advance_pos, hp]
                    | false =>
                      rw [if_neg Bool.false_ne_true, if_neg Bool.false_ne_true]
                      cases hs8 : (c == '!' && peek l₁ == some '=') with
                      | true =>
                        rw [if_pos rfl, if_pos rfl]
                        simp [stepShape, advance_pos, hp]
                      | false =>
                        rw [if_neg Bool.false_ne_true, if_neg Bool.false_ne_true]
                        cases hs9 : (c == '<' && peek l₁ == some '=') with
                        | true =>
                          rw [if_pos rfl, if_pos rfl]
                          simp [stepShape, advance_pos, hp]
                        | false =>
                          rw [if_neg Bool.false_ne_true, if_neg Bool.false_ne_true]
                          cases hs10 : (c == '>' && peek l₁ == some '=') with
                          | true =>
                            rw [if_pos rfl, if_pos rfl]
                            simp [stepShape, advance_pos, hp]
                          | false =>
                            rw [if_neg Bool.false_ne_true, if_neg Bool.false_ne_true]
                            cases hs11 : (c == '&' && peek l₁ == some '&') with
                            | true =>
                              rw [if_pos rfl, if_pos rfl]
                              simp [stepShape, advance_pos, hp]
                            | false =>
                              rw [if_neg Bool.false_ne_true, if_neg Bool.false_ne_true]
                              cases hs12 : (c == '|' && peek l₁ == some '|') with
                              | true =>
                                rw [if_pos rfl, if_pos rfl]
                                simp [stepShape, advance_pos, hp]
                              | false =>
                                rw [if_neg Bool.false_ne_true, if_neg Bool.false_ne_true]
                                cases hsc : singleCharToken c with
                                | some tt =>
                                  simp [stepShape, advance_pos, hp]
                                | none =>
                                  simp [stepShape, lexErrorChar]

theorem except_pure_eq {ε α : Type} (a : α) : (pure a : Except ε α) = .ok a := rfl

theorem except_bind_ok {ε α β : Type} (a : α) (f : α → Except ε β) :
    ((Except.ok a : Except ε α) >>= f) = f a := rfl

theorem except_bind_error {ε α β : Type} (e : ε) (f : α → Except ε β) :
    ((Except.error e : Except ε α) >>= f) = .error e := rfl

theorem nextToken_text (l : LexState) (t : Token) (l' : LexState)
    (h : BasicLexer.nextToken l = .ok (t, l')) : l'.text = l.text :=
  getNextToken_text _ _ _ _ h

theorem pi_nextToken (l₁ l₂ : LexState) (ht : l₁.text = l₂.text) (hp : l₁.pos = l₂.pos) :
    stepShape (BasicLexer.nextToken l₁) = stepShape (BasicLexer.nextToken l₂) := by
  have hf : l₂.text.length - l₂.pos + 1 = l₁.text.length - l₁.pos + 1 := by rw [ht, hp]
  simp only [BasicLexer.nextToken, hf]
  exact pi_getNextToken _ l₁ l₂ ht hp

theorem pi_tokenize :
    ∀ (fuel : Nat) (l₁ l₂ : LexState), l₁.text = l₂.text → l₁.pos = l₂.pos →
      streamShape (BasicLexer.tokenize fuel l₁) = streamShape (BasicLexer.tokenize fuel l₂) := by
  intro fuel
  induction fuel with
  | zero => intro l₁ l₂ _ _; rfl
  | succ fuel ih =>
    intro l₁ l₂ ht hp
    have hstep := pi_getNextToken (fuel+1) l₁ l₂ ht hp
    simp only [BasicLexer.tokenize]
    cases h₁ : BasicLexer.getNextToken (fuel+1) l₁ with
    | error e₁ =>
      cases h₂ : BasicLexer.getNextToken (fuel+1) l₂ with
      | error e₂ =>
        rw [h₁, h₂] at hstep
        simp only [stepShape] at hstep
        simp only [except_bind_error]
        simpa [streamShape] using hstep
      | ok r₂ =>
        rw [h₁, h₂] at hstep
        simp [stepShape] at hstep
    | ok r₁ =>
      rcases r₁ with ⟨t₁, l₁'⟩
      cases h₂ : BasicLexer.getNextToken (fuel+1) l₂ with
      | error e₂ =>
        rw [h₁, h₂] at hstep
        simp [stepShape] at hstep
      | ok r₂ =>
        rcases r₂ with ⟨t₂, l₂'⟩
        rw [h₁, h₂] at hstep
        simp only [stepShape, Except.ok.injEq, Prod.mk.injEq] at hstep
        obtain ⟨⟨hty, hval⟩, hpos⟩ := hstep
        have htext₁ : l₁'.text = l₁.text := getNextToken_text _ _ _ _ h₁
        have htext₂ : l₂'.text = l₂.text := getNextToken_text _ _ _ _ h₂
        simp only [except_bind_ok]
        rw [hty]
        by_cases he : t₂.type = .EOF
        · simp only [if_pos he]
          simp [streamShape, except_pure_eq, tokenShape, hty, hval]
        · simp only [if_neg he]
          have hrec := ih l₁' l₂' (by rw [htext₁, htext₂, ht]) hpos
          cases hr₁ : BasicLexer.tokenize fuel l₁' with
          | error e₁ =>
            cases hr₂ : BasicLexer.tokenize fuel l₂' with
            | error e₂ =>
              rw [hr₁, hr₂] at hrec
              simp only [except_bind_error]
              exact hrec
            | ok ts₂ =>
              rw [hr₁, hr₂] at hrec
              simp [streamShape] at hrec
          | ok ts₁ =>
            cases hr₂ : BasicLexer.tokenize fuel l₂' with
            | error e₂ =>
              rw [hr₁, hr₂] at hrec
              simp [streamShape] at hrec
            | ok ts₂ =>
              rw [hr₁, hr₂] at hrec
              simp only [streamShape, Except.ok.injEq] at hrec
              simp only [except_bind_ok]
              simp [streamShape, except_pure_eq, tokenShape, hty, hval, hrec]

/-- C9 counterexample: on the statement `x = 1`, the lookahead used to
disambiguate assignment restores `pos` and `current_char` — but NOT the
`line`/`column` counters (clarity_parser.py 455-462 saves only `pos`
and `current_char`).  After the peek the very next scanned token is the
same ASSIGN lexeme, yet it carries a different column than it would
have carried had the peek never happened. -/
theorem claim_C9_counterexample_lookahead_column_drift :
    (match Parser.PState.init (LexState.init ['x', ' ', '=', ' ', '1']) with
      | .ok p =>
        (match Parser.identLookahead p.lexer with
          | .ok (nt, lexer') =>
            (nt.type == TokType.ASSIGN) &&
            (lexer'.pos == p.lexer.pos) &&
            (currentChar lexer' == currentChar p.lexer) &&
            !(lexer'.column == p.lexer.column) &&
            (match BasicLexer.nextToken lexer', BasicLexer.nextToken p.lexer with
              | .ok (t1, _), .ok (t2, _) =>
                (t1.type == t2.type) && (t1.value == t2.value) &&
                (t1.line == t2.line) && !(t1.column == t2.column)
              | _, _ => false)
          | .error _ => false)
      | .error _ => false) = true := by decide

/-- C9 as amended: the lookahead restores `pos` and `current_char` (and
leaves the text untouched), so the SEQUENCE of token kinds and lexemes
of the subsequent parse is exactly what it would be without the peek —
but the `line`/`column` counters are NOT restored, and only the
position-free part of the stream is preserved: any two lexer states
sharing text and position (differing only in their `line`/`column`
counters, as the pre-peek and post-peek states do) produce identical
token-kind/lexeme streams, failing on the same inputs at the same
offsets. -/
theorem claim_C9_lookahead_restores_pos_not_columns :
    (∀ (l : LexState) (t : Token) (l' : LexState),
      Parser.identLookahead l = .ok (t, l') →
      l'.pos = l.pos ∧ l'.text = l.text ∧ currentChar l' = currentChar l) ∧
    (∀ (fuel : Nat) (l₁ l₂ : LexState), l₁.text = l₂.text → l₁.pos = l₂.pos →
      streamShape (BasicLexer.tokenize fuel l₁) = streamShape (BasicLexer.tokenize fuel l₂)) := by
  constructor
  · intro l t l' h
    simp only [Parser.identLookahead] at h
    cases hn : BasicLexer.nextToken l with
    | error e =>
      rw [hn] at h
      exact nomatch h
    | ok r =>
      rcases r with ⟨nt, l''⟩
      rw [hn] at h
      cases h
      have htext : l''.text = l.text := nextToken_text l _ l'' hn
      refine ⟨rfl, htext, ?_⟩
      simp [currentChar, htext]
  · exact pi_tokenize

/-- Witness for C9's amended conjuncts: the lookahead on `x =` restores
position 0, and two states differing only in `column` lex to the same
kind/lexeme stream. -/
theorem claim_C9_lookahead_restores_pos_not_columns_witness :
    ({ text := ['x', ' ', '='], pos := 0, line := 1, column := 1 } : LexState).pos =
        (LexState.init ['x', ' ', '=']).pos ∧
      ({ text := ['x', ' ', '='], pos := 0, line := 1, column := 1 } : LexState).text =
        (LexState.init ['x', ' ', '=']).text ∧
      currentChar { text := ['x', ' ', '='], pos := 0, line := 1, column := 1 } =
        currentChar (LexState.init ['x', ' ', '=']) ∧
    streamShape (BasicLexer.tokenize 5 { text := ['x', ' ', '='], pos := 0, line := 1, column := 1 }) =
      streamShape (BasicLexer.tokenize 5 (LexState.init ['x', ' ', '='])) :=
  have h1 := claim_C9_lookahead_restores_pos_not_columns.1 (LexState.init ['x', ' ', '='])
    { type := .IDENTIFIER, value := "x", line := 1, column := 0 }
    { text := ['x', ' ', '='], pos := 0, line := 1, column := 1 } rfl
  ⟨h1.1, h1.2.1, h1.2.2,
   claim_C9_lookahead_restores_pos_not_columns.2 5
     { text := ['x', ' ', '='], pos := 0, line := 1, column := 1 }
     (LexState.init ['x', ' ', '=']) rfl rfl⟩

/-! ### C10 groundwork: facts about the clean fragment -/

theorem cleanText_char : ∀ (text : List Char), cleanText text = true →
    ∀ (i : Nat) (c : Char), text.get? i = some c → cleanChar c = true := by
  intro text
  induction text with
  | nil => intro _ i c hc; exact nomatch hc
  | cons a rest ih =>
    intro h i c hc
    cases rest with
    | nil =>
      cases i with
      | zero =>
        cases hc
        exact h
      | succ j => exact nomatch hc
    | cons b rest2 =>
      have h4 : cleanText (b :: rest2) = true := by
        simp only [cleanText, Bool.and_eq_true] at h
        exact h.2
      cases i with
      | zero =>
        cases hc
        simp only [cleanText, Bool.and_eq_true] at h
        exact h.1.1.1
      | succ j => exact ih h4 j c hc

theorem cleanText_pair : ∀ (text : List Char), cleanText text = true →
    ∀ (i : Nat) (a b : Char), text.get? i = some a → text.get? (i+1) = some b →
      cleanPair a b = true := by
  intro text
  induction text with
  | nil => intro _ i a b ha _; exact nomatch ha
  | cons x rest ih =>
    intro h i a b ha hb
    cases rest with
    | nil =>
      cases i with
      | zero => exact nomatch hb
      | succ j => exact nomatch ha
    | cons y rest2 =>
      have h4 : cleanText (y :: rest2) = true := by
        simp only [cleanText, Bool.and_eq_true] at h
        exact h.2
      cases i with
      | zero =>
        cases ha
        cases hb
        simp only [cleanText, Bool.and_eq_true] at h
        exact h.1.1.2
      | succ j => exact ih h4 j a b ha hb

theorem cleanText_triple : ∀ (text : List Char), cleanText text = true →
    ∀ (i : Nat) (a b c : Char), text.get? i = some a → text.get? (i+1) = some b →
      text.get? (i+2) = some c → (a.isDigit && b == '.' && c.isDigit) = false := by
  intro text
  induction text with
  | nil => intro _ i a b c ha _ _; exact nomatch ha
  | cons x rest ih =>
    intro h i a b c ha hb hc
    cases rest with
    | nil =>
      cases i with
      | zero => exact nomatch hb
      | succ j => exact nomatch ha
    | cons y rest2 =>
      have h4 : cleanText (y :: rest2) = true := by
        simp only [cleanText, Bool.and_eq_true] at h
        exact h.2
      cases i with
      | zero =>
        cases ha
        cases hb
        cases rest2 with
        | nil => exact nomatch hc
        | cons z rest3 =>
          cases hc
          simp only [cleanText, Bool.and_eq_true] at h
          have h5 := h.1.2
          simp only [List.head?_cons, cleanTriple, Bool.not_eq_true'] at h5
          exact h5
      | succ j => exact ih h4 j a b c ha hb hc

set_option maxRecDepth 2000 in
theorem clean_isspace (c : Char) (h : cleanChar c = true) :
    pyIsSpace c = WHITESPACE_CHARS.contains c := by
  have h3 : (28 ≤ c.val && c.val ≤ 31) = false := by
    simp only [cleanChar, Bool.and_eq_true, Bool.not_eq_true'] at h
    exact h.2
  rw [Bool.eq_iff_iff]
  simp [pyIsSpace, WHITESPACE_CHARS, h3, List.contains_cons, beq_iff_eq, or_assoc]

theorem clean_no_backslash (c : Char) (h : cleanChar c = true) : (c == '\\') = false := by
  simp only [cleanChar, Bool.and_eq_true, Bool.not_eq_true'] at h
  exact h.1.2

theorem ident_cond_eq (c : Char) :
    (c.isAlphanum || c == '_') = (optIsLetter c || c.isDigit) := by
  simp only [Char.isAlphanum, optIsLetter]
  cases hb1 : c.isAlpha <;> cases hb2 : c.isDigit <;> cases hb3 : c == '_' <;> rfl

theorem clean_doubleChar (a b : Char) (h : cleanPair a b = true) :
    OptLexer.doubleCharOperator a b = none := by
  simp only [cleanPair, Bool.and_eq_true, Bool.not_eq_true'] at h
  obtain ⟨⟨⟨⟨⟨⟨⟨h1, h2⟩, h3⟩, h4⟩, h5⟩, h6⟩, h7⟩, h8⟩ := h
  simp [OptLexer.doubleCharOperator, h1, h3, h4, h5, h6, h7, h8]

theorem clean_skipWhitespaceAux : ∀ (fuel : Nat) (l : LexState),
    (∀ i ch, l.text.get? i = some ch → cleanChar ch = true) →
    BasicLexer.skipWhitespaceAux fuel l = OptLexer.skipWhitespaceAux fuel l := by
  intro fuel
  induction fuel with
  | zero => intro l _; rfl
  | succ fuel ih =>
    intro l hcl
    simp only [BasicLexer.skipWhitespaceAux, OptLexer.skipWhitespaceAux]
    split
    · rename_i c hcc
      rw [← clean_isspace c (hcl l.pos c hcc)]
      split
      · exact ih (advance l) (fun i ch hi => hcl i ch (by rwa [advance_text] at hi))
      · rfl
    · rfl

theorem drop_cons_of_get? : ∀ (text : List Char) (i : Nat) (c : Char),
    text.get? i = some c → text.drop i = c :: text.drop (i+1) := by
  intro text
  induction text with
  | nil => intro i c hc; exact nomatch hc
  | cons x rest ih =>
    intro i c hc
    cases i with
    | zero =>
      cases hc
      rfl
    | succ j => exact ih j c hc

theorem slice_cons (text : List Char) (i j : Nat) (c : Char)
    (hc : text.get? i = some c) (hij : i + 1 ≤ j) :
    slice text i j = c :: slice text (i+1) j := by
  simp only [ClarityLang.slice]
  rw [drop_cons_of_get? text i c hc]
  have h2 : j - i = (j - (i+1)) + 1 := by omega
  rw [h2]
  rfl

theorem skipDigitsAux_text : ∀ (fuel : Nat) (l : LexState),
    (OptLexer.skipDigitsAux fuel l).text = l.text := by
  intro fuel
  induction fuel with
  | zero => intro l; rfl
  | succ fuel ih =>
    intro l
    simp only [OptLexer.skipDigitsAux]
    split
    · split
      · exact (ih (advance l)).trans (advance_text l)
      · rfl
    · rfl

theorem skipDigitsAux_pos_ge : ∀ (fuel : Nat) (l : LexState),
    l.pos ≤ (OptLexer.skipDigitsAux fuel l).pos := by
  intro fuel
  induction fuel with
  | zero => intro l; exact Nat.le_refl _
  | succ fuel ih =>
    intro l
    simp only [OptLexer.skipDigitsAux]
    split
    · split
      · have := ih (advance l)
        rw [advance_pos] at this
        omega
      · exact Nat.le_refl _
    · exact Nat.le_refl _

theorem readNumberAux_eq_skipDigits : ∀ (fuel : Nat) (l : LexState),
    BasicLexer.readNumberAux fuel l =
      (slice l.text l.pos (OptLexer.skipDigitsAux fuel l).pos, OptLexer.skipDigitsAux fuel l) := by
  intro fuel
  induction fuel with
  | zero => intro l; simp [BasicLexer.readNumberAux, OptLexer.skipDigitsAux, ClarityLang.slice]
  | succ fuel ih =>
    intro l
    simp only [BasicLexer.readNumberAux, OptLexer.skipDigitsAux]
    split
    · rename_i c hcc
      split
      · rename_i hd
        rw [ih (advance l)]
        have hpos : l.pos + 1 ≤ (OptLexer.skipDigitsAux fuel (advance l)).pos := by
          have := skipDigitsAux_pos_ge fuel (advance l)
          rw [advance_pos] at this
          exact this
        rw [advance_text, advance_pos]
        rw [slice_cons l.text l.pos _ c hcc hpos]
      · simp [ClarityLang.slice]
    · simp [ClarityLang.slice]

theorem readNumber_eq_slice (l : LexState) :
    BasicLexer.readNumber l =
      (slice l.text l.pos (OptLexer.skipDigits l).pos, OptLexer.skipDigits l) :=
  readNumberAux_eq_skipDigits _ l

theorem skipDigits_text (l : LexState) : (OptLexer.skipDigits l).text = l.text :=
  skipDigitsAux_text _ l

theorem skipDigitsAux_last : ∀ (fuel : Nat) (l : LexState) (c : Char),
    currentChar l = some c → c.isDigit = true →
    l.pos + 1 ≤ (OptLexer.skipDigitsAux fuel (advance l)).pos ∧
    ∃ d, l.text.get? ((OptLexer.skipDigitsAux fuel (advance l)).pos - 1) = some d ∧
      d.isDigit = true := by
  intro fuel
  induction fuel with
  | zero =>
    intro l c hc hd
    constructor
    · simp [OptLexer.skipDigitsAux, advance_pos]
    · refine ⟨c, ?_, hd⟩
      simp only [OptLexer.skipDigitsAux, advance_pos, Nat.add_sub_cancel]
      exact hc
  | succ fuel ih =>
    intro l c hc hd
    simp only [OptLexer.skipDigitsAux]
    split
    · rename_i c2 hc2
      split
      · rename_i hd2
        have hrec := ih (advance l) c2 hc2 hd2
        constructor
        · have h1 := hrec.1
          rw [advance_pos] at h1
          omega
        · obtain ⟨d, hdg, hdd⟩ := hrec.2
          rw [advance_text] at hdg
          exact ⟨d, hdg, hdd⟩
      · constructor
        · simp [advance_pos]
        · refine ⟨c, ?_, hd⟩
          rw [advance_pos]
          simpa [currentChar] using hc
    · constructor
      · simp [advance_pos]
      · refine ⟨c, ?_, hd⟩
        rw [advance_pos]
        simpa [currentChar] using hc

theorem skipDigits_last (l : LexState) (c : Char) (hc : currentChar l = some c)
    (hd : c.isDigit = true) :
    l.pos + 1 ≤ (OptLexer.skipDigits l).pos ∧
    ∃ d, l.text.get? ((OptLexer.skipDigits l).pos - 1) = some d ∧ d.isDigit = true := by
  have hstep : OptLexer.skipDigits l =
      OptLexer.skipDigitsAux (l.text.length - l.pos) (advance l) := by
    simp only [OptLexer.skipDigits, OptLexer.skipDigitsAux, hc, hd]
    rfl
  rw [hstep]
  exact skipDigitsAux_last _ l c hc hd

theorem skipIdentAux_text : ∀ (fuel : Nat) (l : LexState),
    (OptLexer.skipIdentAux fuel l).text = l.text := by
  intro fuel
  induction fuel with
  | zero => intro l; rfl
  | succ fuel ih =>
    intro l
    simp only [OptLexer.skipIdentAux]
    split
    · split
      · exact (ih (advance l)).trans (advance_text l)
      · rfl
    · rfl

theorem skipIdentAux_pos_ge : ∀ (fuel : Nat) (l : LexState),
    l.pos ≤ (OptLexer.skipIdentAux fuel l).pos := by
  intro fuel
  induction fuel with
  | zero => intro l; exact Nat.le_refl _
  | succ fuel ih =>
    intro l
    simp only [OptLexer.skipIdentAux]
    split
    · split
      · have := ih (advance l)
        rw [advance_pos] at this
        omega
      · exact Nat.le_refl _
    · exact Nat.le_refl _

theorem readIdentifierAux_eq_skipIdent : ∀ (fuel : Nat) (l : LexState),
    BasicLexer.readIdentifierAux fuel l =
      (slice l.text l.pos (OptLexer.skipIdentAux fuel l).pos, OptLexer.skipIdentAux fuel l) := by
  intro fuel
  induction fuel with
  | zero => intro l; simp [BasicLexer.readIdentifierAux, OptLexer.skipIdentAux, ClarityLang.slice]
  | succ fuel ih =>
    intro l
    simp only [BasicLexer.readIdentifierAux, OptLexer.skipIdentAux]
    split
    · rename_i c hcc
      rw [ident_cond_eq c]
      split
      · rename_i hd
        rw [ih (advance l)]
        have hpos : l.pos + 1 ≤ (OptLexer.skipIdentAux fuel (advance l)).pos := by
          have := skipIdentAux_pos_ge fuel (advance l)
          rw [advance_pos] at this
          exact this
        rw [advance_text, advance_pos]
        rw [slice_cons l.text l.pos _ c hcc hpos]
      · simp [ClarityLang.slice]
    · simp [ClarityLang.slice]

theorem readIdentifier_eq_slice (l : LexState) :
    BasicLexer.readIdentifier l =
      (slice l.text l.pos (OptLexer.skipIdent l).pos, OptLexer.skipIdent l) :=
  readIdentifierAux_eq_skipIdent _ l

theorem clean_readStringBodyAux : ∀ (fuel : Nat) (q : Char) (l : LexState),
    (∀ i ch, l.text.get? i = some ch → cleanChar ch = true) →
    BasicLexer.readStringBodyAux fuel q l = OptLexer.readStringBodyAux fuel q l := by
  intro fuel
  induction fuel with
  | zero => intro q l _; rfl
  | succ fuel ih =>
    intro q l hcl
    simp only [BasicLexer.readStringBodyAux, OptLexer.readStringBodyAux]
    split
    · rfl
    · rename_i c hcc
      have hb : (c == '\\') = false := clean_no_backslash c (hcl l.pos c hcc)
      split
      · rfl
      · simp only [hb, Bool.false_eq_true, if_false]
        rw [ih q (advance l) (fun i ch hi => hcl i ch (by rwa [advance_text] at hi))]

theorem clean_readString (l : LexState)
    (hcl : ∀ i ch, l.text.get? i = some ch → cleanChar ch = true) :
    BasicLexer.readString l = OptLexer.readString l := by
  simp only [BasicLexer.readString, OptLexer.readString]
  split
  · rfl
  · rename_i q hq
    have hbody : BasicLexer.readStringBody q (advance l) =
        OptLexer.readStringBody q (advance l) :=
      clean_readStringBodyAux _ q (advance l)
        (fun i ch hi => hcl i ch (by rwa [advance_text] at hi))
    rw [hbody]

theorem clean_getNextToken : ∀ (fuel : Nat) (l : LexState), cleanText l.text = true →
    BasicLexer.getNextToken fuel l = OptLexer.getNextToken fuel l := by
  intro fuel
  induction fuel with
  | zero => intro l _; rfl
  | succ fuel ih =>
    intro l hct
    have hcl : ∀ i ch, l.text.get? i = some ch → cleanChar ch = true :=
      fun i ch => cleanText_char l.text hct i ch
    simp only [BasicLexer.getNextToken, OptLexer.getNextToken]
    split
    · rfl
    · rename_i c hcc
      have hclean_c : cleanChar c = true := hcl l.pos c hcc
      rw [← clean_isspace c hclean_c]
      cases hs0 : pyIsSpace c with
      | true =>
        rw [if_pos rfl, if_pos rfl]
        have hsw : BasicLexer.skipWhitespace l = OptLexer.skipWhitespace l :=
          clean_skipWhitespaceAux _ l hcl
        rw [hsw]
        exact ih _ (by rw [← hsw, skipWhitespace_text]; exact hct)
      | false =>
        rw [if_neg Bool.false_ne_true, if_neg Bool.false_ne_true]
        cases hs1 : (c == '/' && peek l == some '/') with
        | true =>
          rw [if_pos rfl, if_pos rfl]
          exact ih _ (by rw [skipComment_text, advance_text, advance_text]; exact hct)
        | false =>
          rw [if_neg Bool.false_ne_true, if_neg Bool.false_ne_true]
          cases hs2 : c.isDigit with
          | true =>
            rw [if_pos rfl, if_pos rfl]
            have hLtext : (OptLexer.skipDigits l).text = l.text := skipDigits_text l
            have hfrac : (currentChar (OptLexer.skipDigits l) == some '.' &&
                (match peek (OptLexer.skipDigits l) with
                  | some d => d.isDigit | none => false)) = false := by
              rcases hdot : currentChar (OptLexer.skipDigits l) with _ | cdot
              · simp [hdot]
              · by_cases hdotc : cdot = '.'
                · subst hdotc
                  rcases hpk2 : peek (OptLexer.skipDigits l) with _ | d
                  · simp [hdot, hpk2]
                  · cases hdd : d.isDigit with
                    | true =>
                      exfalso
                      obtain ⟨hge, d0, hd0g, hd0d⟩ := skipDigits_last l c hcc hs2
                      have hdotP : l.text.get? ((OptLexer.skipDigits l).pos - 1 + 1) =
                          some '.' := by
                        rw [Nat.sub_add_cancel (by omega)]
                        rw [← hLtext]
                        exact hdot
                      have hdP : l.text.get? ((OptLexer.skipDigits l).pos - 1 + 2) =
                          some d := by
                        have h2 : (OptLexer.skipDigits l).pos - 1 + 2 =
                            (OptLexer.skipDigits l).pos + 1 := by omega
                        rw [h2, ← hLtext]
                        exact hpk2
                      have htr := cleanText_triple l.text hct
                        ((OptLexer.skipDigits l).pos - 1) d0 '.' d hd0g hdotP hdP
                      simp [hd0d, hdd] at htr
                    | false => simp [hdot, hpk2, hdd]
                · simp [hdot, hdotc]
            have hopt : OptLexer.readNumber l =
                (slice l.text l.pos (OptLexer.skipDigits l).pos, OptLexer.skipDigits l) := by
              simp only [OptLexer.readNumber, hfrac, Bool.false_eq_true, if_false]
            rw [readNumber_eq_slice l, hopt]
          | false =>
            rw [if_neg Bool.false_ne_true, if_neg Bool.false_ne_true]
            simp only [optIsLetter]
            by_cases hs3 : (c.isAlpha || c == '_') = true
            · rw [if_pos hs3, if_pos hs3]
              rw [readIdentifier_eq_slice l]
              rfl
            · rw [if_neg hs3, if_neg hs3]
              by_cases hs4 : (c == '"' || c == '\'') = true
              · rw [if_pos hs4, if_pos hs4]
                rw [clean_readString l hcl]
              · rw [if_neg hs4, if_neg hs4]
                cases hpk : peek l with
                | none =>
                  have hnone : ∀ y : Char, ((none : Option Char) == some y) = false :=
                    fun _ => rfl
                  simp only [hpk, hnone, Bool.and_false, Bool.false_eq_true, if_false]
                | some nc =>
                  have hcp : cleanPair c nc = true :=
                    cleanText_pair l.text hct l.pos c nc hcc hpk
                  have hdco := clean_doubleChar c nc hcp
                  simp only [cleanPair, Bool.and_eq_true, Bool.not_eq_true'] at hcp
                  obtain ⟨⟨⟨⟨⟨⟨⟨g1, g2⟩, g3⟩, g4⟩, g5⟩, g6⟩, g7⟩, g8⟩ := hcp
                  have hsome : ∀ y : Char, ((some nc : Option Char) == some y) = (nc == y) :=
                    fun _ => rfl
                  simp only [hpk, hsome, hdco, g1, g2, g3, g4, g5, g6, g7, g8,
                    Bool.false_eq_true, if_false]

theorem clean_tokenize : ∀ (fuel : Nat) (l : LexState), cleanText l.text = true →
    BasicLexer.tokenize fuel l = OptLexer.tokenize fuel l := by
  intro fuel
  induction fuel with
  | zero => intro l _; rfl
  | succ fuel ih =>
    intro l hct
    simp only [BasicLexer.tokenize, OptLexer.tokenize]
    rw [← clean_getNextToken (fuel+1) l hct]
    cases hstep : BasicLexer.getNextToken (fuel+1) l with
    | error e => rfl
    | ok r =>
      rcases r with ⟨t, l'⟩
      simp only [except_bind_ok]
      by_cases he : t.type = .EOF
      · simp only [if_pos he]
      · simp only [if_neg he]
        have htext : l'.text = l.text := getNextToken_text _ _ _ _ hstep
        rw [ih l' (by rw [htext]; exact hct)]

/-- C10 counterexample: the two lexers are NOT equivalent.  On `->` the
basic lexer emits one ARROW token while the optimized lexer emits
MINUS then GT; on `3.14` the basic lexer emits
NUMBER/DOT/NUMBER while the optimized lexer emits one float NUMBER; on
`"a\nb"` the string lexemes differ; on `=>` the basic lexer rewrites
the lexeme to `->` while the optimized lexer keeps `=>`; and on `==`
the two stamp different columns on the same token. -/
theorem claim_C10_counterexample_lexers_diverge :
    ((match BasicLexer.tokenizeText 10 ['-', '>'] with
      | .ok [t, e] => (t.type == TokType.ARROW) && (t.value == "->") && (e.type == TokType.EOF)
      | _ => false) = true) ∧
    ((match OptLexer.tokenizeText 10 ['-', '>'] with
      | .ok [a, b, e] => (a.type == TokType.MINUS) && (a.value == "-") &&
          (b.type == TokType.GT) && (b.value == ">") && (e.type == TokType.EOF)
      | _ => false) = true) ∧
    ((match BasicLexer.tokenizeText 10 ['3', '.', '1', '4'] with
      | .ok [a, b, c, e] =>
        (a.type == TokType.NUMBER) && (a.value == "3") && (b.type == TokType.DOT) &&
        (c.type == TokType.NUMBER) && (c.value == "14") && (e.type == TokType.EOF)
      | _ => false) = true) ∧
    ((match OptLexer.tokenizeText 10 ['3', '.', '1', '4'] with
      | .ok [t, e] => (t.type == TokType.NUMBER) && (t.value == "3.14") &&
          (e.type == TokType.EOF)
      | _ => false) = true) ∧
    ((match BasicLexer.tokenizeText 10 ['=', '>'] with
      | .ok [t, _] => (t.type == TokType.ARROW) && (t.value == "->")
      | _ => false) = true) ∧
    ((match OptLexer.tokenizeText 10 ['=', '>'] with
      | .ok [t, _] => (t.type == TokType.ARROW) && (t.value == "=>")
      | _ => false) = true) ∧
    ((match BasicLexer.tokenizeText 10 ['=', '='] with
      | .ok [t, _] => (t.type == TokType.EQ) && (t.value == "==") && (t.column == 1)
      | _ => false) = true) ∧
    ((match OptLexer.tokenizeText 10 ['=', '='] with
      | .ok [t, _] => (t.type == TokType.EQ) && (t.value == "==") && (t.column == 0)
      | _ => false) = true) := by
  refine ⟨by decide, by decide, by decide, by decide, by decide, by decide, by decide, by decide⟩

/-- C10 as amended: the equivalence holds exactly on the common
fragment.  On any input whose text is clean — ASCII without
backslashes or the `\x1c`-`\x1f` separator controls, with no
two-character operator digraph and no digit-dot-digit run — the basic
and the optimized lexer agree step for step: `get_next_token` returns
the identical token (kind, lexeme, line AND column) and the identical
successor state, and whole-input tokenization from a fresh lexer yields
identical streams, failing identically otherwise. -/
theorem claim_C10_lexers_agree_on_clean_fragment :
    (∀ (fuel : Nat) (l : LexState), cleanText l.text = true →
      BasicLexer.getNextToken fuel l = OptLexer.getNextToken fuel l) ∧
    (∀ (fuel : Nat) (text : List Char), cleanText text = true →
      BasicLexer.tokenizeText fuel text = OptLexer.tokenizeText fuel text) :=
  ⟨clean_getNextToken, fun fuel text h => clean_tokenize fuel (LexState.init text) h⟩

/-- Witness for C10's amended equivalence on the clean program
`let x = 1;`. -/
theorem claim_C10_lexers_agree_on_clean_fragment_witness :
    BasicLexer.getNextToken 11
        (LexState.init ['l', 'e', 't', ' ', 'x', ' ', '=', ' ', '1', ';']) =
      OptLexer.getNextToken 11
        (LexState.init ['l', 'e', 't', ' ', 'x', ' ', '=', ' ', '1', ';']) ∧
    BasicLexer.tokenizeText 11 ['l', 'e', 't', ' ', 'x', ' ', '=', ' ', '1', ';'] =
      OptLexer.tokenizeText 11 ['l', 'e', 't', ' ', 'x', ' ', '=', ' ', '1', ';'] :=
  ⟨claim_C10_lexers_agree_on_clean_fragment.1 11
      (LexState.init ['l', 'e', 't', ' ', 'x', ' ', '=', ' ', '1', ';']) (by decide),
   claim_C10_lexers_agree_on_clean_fragment.2 11
      ['l', 'e', 't', ' ', 'x', ' ', '=', ' ', '1', ';'] (by decide)⟩
